import Mathlib

/-!
Shallow embedding of the AOP (Autonomous Orchestration Platform) core in Lean 4,
translated from the Rust sources under `src/src-tauri/src`.  Rust `f32`/`f64`
arithmetic is modelled by exact rationals (`ℚ`) or reals (`ℝ`); machine-integer
casts that truncate are modelled with explicit floors; `u32`/`i64` quantities are
`ℕ`/`ℤ` (no overflow is reachable at the magnitudes involved).  Database rows are
modelled as records, and the sqlite-backed stores as explicit state passing.
-/

namespace AOP

/-- `x.clamp(lo, hi)` on Rust floats (for non-NaN inputs): `min (max x lo) hi`. -/
def clampQ (x lo hi : ℚ) : ℚ := min (max x lo) hi

/-- Rust `value.floor() as u32` for a non-negative float value: floor, saturating
to 0 below zero (the `as u32` cast saturates on negatives). -/
def ratFloorToNat (q : ℚ) : ℕ := (Int.floor q).toNat

/-- Rust `value.round() as u32` (f32 `round` is half-away-from-zero; for the
non-negative values used here this is `floor (q + 1/2)`). -/
def ratRoundToNat (q : ℚ) : ℕ := (round q).toNat

/-- Whether `pat` is an initial segment of `s` (character-wise). -/
def charsStartWith : List Char → List Char → Bool
  | _, [] => true
  | [], _ :: _ => false
  | a :: as, b :: bs => a = b && charsStartWith as bs

/-- Whether `pat` occurs contiguously inside `s` (character-wise). -/
def charsContainSeq : List Char → List Char → Bool
  | [], pat => pat.isEmpty
  | a :: as, pat => charsStartWith (a :: as) pat || charsContainSeq as pat

/-- Rust `str::contains(pat)`: substring containment on the character sequence. -/
def containsSubstr (s pat : String) : Bool := charsContainSeq s.data pat.data

/-- Rust `str::to_ascii_lowercase` (`Char.toLower` only lowers ASCII). -/
def toLowerStr (s : String) : String := String.mk (s.data.map Char.toLower)

/-- Rust `str::trim`: strip leading and trailing whitespace. -/
def trimStr (s : String) : String :=
  String.mk (((s.data.dropWhile Char.isWhitespace).reverse.dropWhile Char.isWhitespace).reverse)

/-- Rust `str::starts_with(pat)`. -/
def startsWithStr (s pat : String) : Bool := charsStartWith s.data pat.data

/-- Helper for `splitWhitespaceCount`: count maximal non-whitespace runs; the
flag records whether the previous character was inside a run. -/
def countWordRuns : List Char → Bool → ℕ
  | [], _ => 0
  | c :: cs, inWord =>
    if Char.isWhitespace c then countWordRuns cs false
    else (if inWord then 0 else 1) + countWordRuns cs true

/-- Rust `str::split_whitespace().count()`: number of maximal non-empty runs of
non-whitespace characters. -/
def splitWhitespaceCount (s : String) : ℕ := countWordRuns s.data false

/-- Split a character list at every occurrence of the separator character
(Rust `str::split(sep)`, which yields empty pieces between adjacent
separators). -/
def splitCharList (sep : Char) : List Char → List (List Char)
  | [] => [[]]
  | c :: cs =>
    let rest := splitCharList sep cs
    if c = sep then [] :: rest
    else
      match rest with
      | [] => [[c]]
      | piece :: pieces => (c :: piece) :: pieces

/-- Rust `path.split('/')` on a string, as strings. -/
def splitSlash (s : String) : List String := (splitCharList '/' s.data).map String.mk

instance {ε α : Type} [DecidableEq ε] [DecidableEq α] : DecidableEq (Except ε α) :=
  fun a b =>
    match a, b with
    | .ok x, .ok y =>
      match decEq x y with
      | isTrue h => isTrue (by rw [h])
      | isFalse h => isFalse (by intro hc; cases hc; exact h rfl)
    | .error x, .error y =>
      match decEq x y with
      | isTrue h => isTrue (by rw [h])
      | isFalse h => isFalse (by intro hc; cases hc; exact h rfl)
    | .ok _, .error _ => isFalse (by intro hc; cases hc)
    | .error _, .ok _ => isFalse (by intro hc; cases hc)

namespace TasksDb
/-! ### `db/tasks.rs` — the task store -/

/-- `TaskStatus` from `db/tasks.rs`. -/
inductive TaskStatus where
  | pending
  | executing
  | completed
  | failed
  | paused
deriving DecidableEq, Repr

/-- `TaskStatus::as_str`. -/
def TaskStatus.as_str : TaskStatus → String
  | .pending => "pending"
  | .executing => "executing"
  | .completed => "completed"
  | .failed => "failed"
  | .paused => "paused"

/-- `TaskRecord` from `db/tasks.rs` (field `context_efficiency` models the
source's `context_efficiency_ratio` column). -/
structure TaskRecord where
  id : String
  parent_id : Option String
  tier : ℤ
  domain : String
  objective : String
  status : String
  token_budget : ℤ
  token_usage : ℤ
  context_efficiency : ℚ
  risk_factor : ℚ
  compliance_score : ℤ
  checksum_before : Option String
  checksum_after : Option String
  error_message : Option String
  retry_count : ℤ
  created_at : ℤ
  updated_at : ℤ
  target_files : Option String
deriving DecidableEq, Repr

/-- The row update performed by `update_task_status` on the matched task
(`SET status = ?, error_message = ?, updated_at = ?`). -/
def update_task_status (t : TaskRecord) (status : TaskStatus)
    (error_message : Option String) (now : ℤ) : TaskRecord :=
  { t with status := status.as_str, error_message := error_message, updated_at := now }

/-- The sentinel prefix used by `control_task` to encode the pre-pause status. -/
def PAUSE_MARKER : String := "__aop_paused_prev_status:"

/-- `paused_previous_status` from `db/tasks.rs`: decode the sentinel-encoded
prior status from `error_message`, defaulting to `executing`. -/
def paused_previous_status (error_message : Option String) : TaskStatus :=
  match error_message with
  | none => .executing
  | some raw =>
    if startsWithStr (trimStr raw) PAUSE_MARKER then
      let value := String.mk ((trimStr raw).data.drop PAUSE_MARKER.data.length)
      if value = "pending" then .pending
      else if value = "executing" then .executing
      else .executing
    else .executing

/-- One iteration of the `control_task` loop body applied to the current record
(`db/tasks.rs` lines 262-343).  `none` models the `continue` arms (the task is
skipped and not pushed to `updated`). -/
def control_action_apply (action : String) (t : TaskRecord) (stop_reason : String)
    (now : ℤ) : Option TaskRecord :=
  if action = "pause" then
    if t.status = "completed" ∨ t.status = "failed" ∨ t.status = "paused" then none
    else
      some (update_task_status t .paused (some (PAUSE_MARKER ++ t.status)) now)
  else if action = "resume" then
    if t.status ≠ "paused" then none
    else
      some (update_task_status t (paused_previous_status t.error_message) none now)
  else if action = "stop" then
    if t.status = "completed" ∨ t.status = "failed" then none
    else
      some (update_task_status t .failed (some ("stopped_by_user:" ++ stop_reason)) now)
  else if action = "restart" then
    if t.status = "failed" ∨ t.status = "completed" ∨ t.status = "paused" then
      some { t with status := "pending", error_message := none,
                    retry_count := t.retry_count + 1, updated_at := now }
    else none
  else none

end TasksDb

namespace DomainLeader
/-! ### `agents/domain_leader.rs` — compliance scoring -/

/-- `compute_compliance_score` from `agents/domain_leader.rs` (lines 961-978).
The Rust `((1.0 - risk.clamp(0.0,1.0)) * 20.0) as i64` cast truncates toward
zero; the operand lies in `[0, 20]`, so the cast is the floor. -/
def compute_compliance_score (risk_factor : ℚ) (proposals_count : ℕ)
    (status : String) : ℤ :=
  let score : ℤ := 55 + (proposals_count : ℤ) * 12
      + Int.floor ((1 - clampQ risk_factor 0 1) * 20)
  let score : ℤ :=
    if status = "consensus_failed" then score - 18
    else if status = "blocked" then score - 30
    else score
  min (max score 0) 100

/-- The compliance-score formula exactly as the spec words it (`base 55 +
12·proposals_count + 20·(1 − risk_factor); −18 if consensus_failed, −30 if
blocked; clamped to [0,100]`), read over exact rationals with no truncation.
Stated from the spec for comparison against `compute_compliance_score`. -/
def spec_compliance_score (risk_factor : ℚ) (proposals_count : ℕ)
    (status : String) : ℚ :=
  let score : ℚ := 55 + (proposals_count : ℚ) * 12 + 20 * (1 - risk_factor)
  let score : ℚ :=
    if status = "consensus_failed" then score - 18
    else if status = "blocked" then score - 30
    else score
  clampQ score 0 100

/-- The spec formula amended with the truncation the code performs: the
`20·(1 − risk)` term is floored after clamping the risk factor into `[0,1]`. -/
def amended_compliance_score (risk_factor : ℚ) (proposals_count : ℕ)
    (status : String) : ℤ :=
  let base : ℤ := 55 + (proposals_count : ℤ) * 12
      + Int.floor (20 * (1 - clampQ risk_factor 0 1))
  let adjusted : ℤ :=
    if status = "consensus_failed" then base - 18
    else if status = "blocked" then base - 30
    else base
  max 0 (min adjusted 100)

end DomainLeader

namespace Orchestrator
/-! ### `agents/orchestrator.rs` — planning arithmetic -/

/-- `contains_any` from `agents/orchestrator.rs`. -/
def contains_any (value : String) (patterns : List String) : Bool :=
  patterns.any (fun pat => containsSubstr value pat)

/-- `estimate_failure_probability` from `agents/orchestrator.rs` (lines
1817-1843): keyword-driven base risk, clamped to `[0.05, 0.95]`. -/
def estimate_failure_probability (global_objective assignment_objective domain : String) : ℚ :=
  let globalText := toLowerStr global_objective
  let localText := toLowerStr assignment_objective
  let p : ℚ := 22/100
  let p := if contains_any globalText ["refactor", "rewrite", "migrate", "replace"]
    then p + 22/100 else p
  let p := if contains_any globalText ["performance", "cache", "concurrency"]
    then p + 8/100 else p
  let p := if contains_any globalText ["auth", "security", "session", "token"] ∨ domain = "auth"
    then p + 15/100 else p
  let p := if domain = "database" ∨ contains_any localText ["schema", "migration", "query"]
    then p + 12/100 else p
  let p := if domain = "testing" then p - 8/100 else p
  clampQ p (5/100) (95/100)

/-- One pass of the remainder-distribution `while` loop in
`allocate_token_budgets`: add `1` to each element in order while the remaining
gap `r` lasts.  Returns the updated list and the number of increments made. -/
def add_one_pass : List ℕ → ℕ → List ℕ × ℕ
  | [], _ => ([], 0)
  | l, 0 => (l, 0)
  | x :: xs, r + 1 =>
    let p := add_one_pass xs r
    ((x + 1) :: p.1, p.2 + 1)

/-- The `while assigned < distributed` loop of `allocate_token_budgets` on the
remaining gap `gap = distributed - assigned`.  Each iteration is one pass over
the list; a pass on a non-empty list always makes at least one increment, so
`fuel = gap` bounds the number of passes (on an empty list the source's guard
makes the loop unreachable; here the recursion simply stops). -/
def distribute_go : List ℕ → ℕ → ℕ → List ℕ
  | l, _, 0 => l
  | l, gap, fuel + 1 =>
    if gap = 0 then l
    else
      let p := add_one_pass l gap
      if p.2 = 0 then p.1
      else distribute_go p.1 (gap - p.2) fuel

/-- Remainder distribution entry point (fuel instantiated to the gap itself). -/
def distribute_remainder (l : List ℕ) (gap : ℕ) : List ℕ :=
  distribute_go l gap gap

/-- `allocate_token_budgets` from `agents/orchestrator.rs` (lines 1912-1938):
floor-rounded proportional shares followed by round-robin `+1` distribution of
the remainder. -/
def allocate_token_budgets (distributed : ℕ) (weights : List ℚ) : List ℕ :=
  if weights.isEmpty then []
  else
    let total : ℚ := max weights.sum 1
    let budgets := weights.map (fun w => ratFloorToNat ((distributed : ℚ) * (w / total)))
    let assigned := budgets.sum
    distribute_remainder budgets (distributed - assigned)

/-- The per-assignment weight `generate_plan` actually uses
(`agents/orchestrator.rs` lines 1371-1375): `2.0` for tier ≤ 2, else `1.0`. -/
def generate_plan_tier_weight (tier : ℕ) : ℚ := if tier ≤ 2 then 2 else 1

/-- The 10 % overhead (and, identically, reserve) share of the global budget in
`generate_plan` (lines 1365-1366): `((global as f32) * 0.10).round() as u32`. -/
def plan_overhead_budget (global : ℕ) : ℕ := ratRoundToNat ((global : ℚ) * (10/100))

/-- The distributed budget of `generate_plan` (lines 1365-1369): global budget
minus the overhead and reserve shares (saturating subtraction). -/
def generate_plan_distributed_budget (global : ℕ) : ℕ :=
  global - (plan_overhead_budget global + plan_overhead_budget global)

/-- The per-assignment token budgets computed by `generate_plan` (lines
1371-1376), as a function of the global budget and the tiers the LLM returned
for the planned tasks. -/
def generate_plan_budgets (global : ℕ) (tiers : List ℕ) : List ℕ :=
  allocate_token_budgets (max (generate_plan_distributed_budget global) 1)
    (tiers.map generate_plan_tier_weight)

/-- Stated from the spec claim for comparison: weight `1 + 2.2·risk_factor`. -/
def claim_risk_weight (risk : ℚ) : ℚ := 1 + risk * (22/10)

/-- Stated from the spec claim for comparison: the allocation `generate_plan`
would produce if it weighted assignments by `1 + 2.2·risk_factor`. -/
def claim_plan_budgets (global : ℕ) (risks : List ℚ) : List ℕ :=
  allocate_token_budgets (max (generate_plan_distributed_budget global) 1)
    (risks.map claim_risk_weight)

/-- The amended-claim allocation, worded as the spec words it (proportional,
floor-rounded, remainder distributed by `+1` increments round-robin) but with
the tier-based weights the code uses: share `i` is
`⌊distributed·wᵢ/W⌋ + gap/n + 1` for the first `gap mod n` indices,
`⌊distributed·wᵢ/W⌋ + gap/n` for the rest, where `gap` is what flooring left
over. -/
def amended_plan_budgets (global : ℕ) (tiers : List ℕ) : List ℕ :=
  let d := max (generate_plan_distributed_budget global) 1
  let ws := tiers.map generate_plan_tier_weight
  if ws.isEmpty then []
  else
    let total : ℚ := max ws.sum 1
    let base := ws.map (fun w => ratFloorToNat ((d : ℚ) * (w / total)))
    let gap := d - base.sum
    let n := base.length
    base.enum.map (fun p => p.2 + gap / n + if p.1 < gap % n then 1 else 0)

end Orchestrator

namespace Sha256
/-! ### SHA-256 (the `sha2` crate used by `vector/indexer.rs` and
`agents/specialist.rs`), over byte lists (`ℕ` entries < 256). -/

/-- Truncate to 32 bits. -/
def w32 (n : ℕ) : ℕ := n % 4294967296

/-- Rotate a 32-bit word right by `n`. -/
def rotr (n x : ℕ) : ℕ := w32 ((x >>> n) + (x <<< (32 - n)))

/-- Bitwise complement of a 32-bit word. -/
def bnot32 (x : ℕ) : ℕ := Nat.xor x 4294967295

def ch (x y z : ℕ) : ℕ := Nat.xor (Nat.land x y) (Nat.land (bnot32 x) z)

def maj (x y z : ℕ) : ℕ := Nat.xor (Nat.xor (Nat.land x y) (Nat.land x z)) (Nat.land y z)

def bigSigma0 (x : ℕ) : ℕ := Nat.xor (Nat.xor (rotr 2 x) (rotr 13 x)) (rotr 22 x)

def bigSigma1 (x : ℕ) : ℕ := Nat.xor (Nat.xor (rotr 6 x) (rotr 11 x)) (rotr 25 x)

def smallSigma0 (x : ℕ) : ℕ := Nat.xor (Nat.xor (rotr 7 x) (rotr 18 x)) (x >>> 3)

def smallSigma1 (x : ℕ) : ℕ := Nat.xor (Nat.xor (rotr 17 x) (rotr 19 x)) (x >>> 10)

/-- The 64 SHA-256 round constants. -/
def roundK : List ℕ :=
  [1116352408, 1899447441, 3049323471, 3921009573, 961987163, 1508970993,
   2453635748, 2870763221, 3624381080, 310598401, 607225278, 1426881987,
   1925078388, 2162078206, 2614888103, 3248222580, 3835390401, 4022224774,
   264347078, 604807628, 770255983, 1249150122, 1555081692, 1996064986,
   2554220882, 2821834349, 2952996808, 3210313671, 3336571891, 3584528711,
   113926993, 338241895, 666307205, 773529912, 1294757372, 1396182291,
   1695183700, 1986661051, 2177026350, 2456956037, 2730485921, 2820302411,
   3259730800, 3345764771, 3516065817, 3600352804, 4094571909, 275423344,
   430227734, 506948616, 659060556, 883997877, 958139571, 1322822218,
   1537002063, 1747873779, 1955562222, 2024104815, 2227730452, 2361852424,
   2428436474, 2756734187, 3204031479, 3329325298]

/-- The initial hash state. -/
def initH : List ℕ :=
  [1779033703, 3144134277, 1013904242, 2773480762, 1359893119, 2600822924,
   528734635, 1541459225]

/-- Pad the message: append `0x80`, zeros, then the bit length as 8 big-endian
bytes, to a multiple of 64 bytes. -/
def padMessage (ms : List ℕ) : List ℕ :=
  let len := ms.length
  let zeroCount := (64 + 56 - ((len + 1) % 64)) % 64
  let bitLen := 8 * len
  ms ++ [0x80] ++ List.replicate zeroCount 0 ++
    [bitLen / 2 ^ 56 % 256, bitLen / 2 ^ 48 % 256, bitLen / 2 ^ 40 % 256,
     bitLen / 2 ^ 32 % 256, bitLen / 2 ^ 24 % 256, bitLen / 2 ^ 16 % 256,
     bitLen / 2 ^ 8 % 256, bitLen % 256]

/-- Group bytes into big-endian 32-bit words. -/
def toWords : List ℕ → List ℕ
  | b0 :: b1 :: b2 :: b3 :: rest =>
    (b0 * 16777216 + b1 * 65536 + b2 * 256 + b3) :: toWords rest
  | _ => []

/-- Extend a 16-word block to the 64-word message schedule (fuel 48). -/
def extendSchedule (ws : List ℕ) : ℕ → List ℕ
  | 0 => ws
  | fuel + 1 =>
    let t := ws.length
    let w := w32 (smallSigma1 (ws.getD (t - 2) 0) + ws.getD (t - 7) 0 +
      smallSigma0 (ws.getD (t - 15) 0) + ws.getD (t - 16) 0)
    extendSchedule (ws ++ [w]) fuel

/-- One compression round on the 8-word working state. -/
def roundStep (state : List ℕ) (kw : ℕ × ℕ) : List ℕ :=
  let a := state.getD 0 0
  let b := state.getD 1 0
  let c := state.getD 2 0
  let d := state.getD 3 0
  let e := state.getD 4 0
  let f := state.getD 5 0
  let g := state.getD 6 0
  let h := state.getD 7 0
  let t1 := w32 (h + bigSigma1 e + ch e f g + kw.1 + kw.2)
  let t2 := w32 (bigSigma0 a + maj a b c)
  [w32 (t1 + t2), a, b, c, w32 (d + t1), e, f, g]

/-- Compress one 64-byte block into the running hash state. -/
def compressBlock (h : List ℕ) (block : List ℕ) : List ℕ :=
  let ws := extendSchedule (toWords block) 48
  let final := (roundK.zip ws).foldl roundStep h
  (h.zip final).map (fun p => w32 (p.1 + p.2))

/-- Process the padded message block by block (64 bytes at a time). -/
def processBlocks (h : List ℕ) : List ℕ → ℕ → List ℕ
  | _, 0 => h
  | bytes, fuel + 1 =>
    match bytes with
    | [] => h
    | _ => processBlocks (compressBlock h (bytes.take 64)) (bytes.drop 64) fuel

/-- SHA-256 digest of a byte list, as 32 bytes. -/
def sha256 (ms : List ℕ) : List ℕ :=
  let padded := padMessage ms
  let h := processBlocks initH padded (padded.length / 64)
  h.flatMap (fun word =>
    [word / 16777216 % 256, word / 65536 % 256, word / 256 % 256, word % 256])

end Sha256

namespace Indexer
/-! ### `vector/indexer.rs` — the embedding contract -/

/-- `VECTOR_DIM` from `vector/indexer.rs`. -/
def VECTOR_DIM : ℕ := 256

/-- Split a character list at every character satisfying `p`
(Rust `str::split(|ch| ...)`, which yields empty pieces between adjacent
separators). -/
def splitCharsWhen (p : Char → Bool) : List Char → List (List Char)
  | [] => [[]]
  | c :: cs =>
    let rest := splitCharsWhen p cs
    if p c then [] :: rest
    else
      match rest with
      | [] => [[c]]
      | piece :: pieces => (c :: piece) :: pieces

/-- The tokens `embed_text` hashes: split on non-alphanumeric, non-underscore
characters and keep tokens of length ≥ 3 (`Char.isAlphanum` is
ASCII-alphanumeric; byte length and character length agree on ASCII). -/
def embedTokens (text : String) : List String :=
  ((splitCharsWhen (fun c => ¬ (c.isAlphanum ∨ c = '_')) text.data).map String.mk).filter
    (fun t => 3 ≤ t.length)

/-- The bytes of an (ASCII) token: UTF-8 encoding is the identity on ASCII. -/
def strBytes (s : String) : List ℕ := s.data.map Char.toNat

/-- The accumulation step of `embed_text` for one token: hash the lowercased
token, derive the index from the first two digest bytes (little-endian `u16`
mod `VECTOR_DIM`) and the sign from the third byte, and bump that slot. -/
def embedAccum (v : List ℤ) (token : String) : List ℤ :=
  v.set
    (((Sha256.sha256 (strBytes (toLowerStr token))).getD 0 0 +
      256 * (Sha256.sha256 (strBytes (toLowerStr token))).getD 1 0) % VECTOR_DIM)
    (v.getD (((Sha256.sha256 (strBytes (toLowerStr token))).getD 0 0 +
      256 * (Sha256.sha256 (strBytes (toLowerStr token))).getD 1 0) % VECTOR_DIM) 0 +
      (if (Sha256.sha256 (strBytes (toLowerStr token))).getD 2 0 % 2 = 0 then (1 : ℤ) else -1))

/-- The un-normalised accumulation of `embed_text` from `vector/indexer.rs`
(lines 359-372): a `VECTOR_DIM`-slot vector of signed token counts (the `f32`
slots only ever hold integer sums at this stage). -/
def embed_raw (text : String) : List ℤ :=
  (embedTokens text).foldl embedAccum (List.replicate VECTOR_DIM 0)

/-- `embed_text` from `vector/indexer.rs` (lines 359-381): the accumulated
vector, L2-normalised when the norm is positive. -/
noncomputable def embed_text (text : String) : List ℝ :=
  if 0 < Real.sqrt (((embed_raw text).map (fun z : ℤ => (z : ℝ))
      |>.map (fun v => v * v)).sum) then
    ((embed_raw text).map (fun z : ℤ => (z : ℝ))).map
      (fun v => v / Real.sqrt (((embed_raw text).map (fun z : ℤ => (z : ℝ))
        |>.map (fun v => v * v)).sum))
  else (embed_raw text).map (fun z : ℤ => (z : ℝ))

end Indexer

/-- Rust `str::len()`: UTF-8 byte length. -/
def strByteLen (s : String) : ℕ := (s.data.map (fun c => c.utf8Size)).sum

/-- Replace every CRLF pair by LF (Rust `content.replace("\r\n", "\n")`). -/
def stripCrLfChars : List Char → List Char
  | '\r' :: '\n' :: rest => '\n' :: stripCrLfChars rest
  | c :: rest => c :: stripCrLfChars rest
  | [] => []

/-- Rust `content.replace("\r\n", "\n")` on strings. -/
def replaceCrLf (s : String) : String := String.mk (stripCrLfChars s.data)

/-- Rust `str::lines().count()`: newline-separated segments, with a trailing
empty segment (from a final newline) not counted. -/
def linesCount (s : String) : ℕ :=
  let ps := splitCharList '\n' s.data
  (if ps.getLast? = some [] then ps.dropLast else ps).length

namespace Specialist
/-! ### `agents/specialist.rs` — the tier-3 specialist -/

/-- `CodeBlock` from `agents/mod.rs`. -/
structure CodeBlock where
  file_path : String
  start_line : ℕ
  end_line : ℕ
  content : String
  embedding : Option (List ℚ)
deriving DecidableEq, Repr

/-- `SpecialistTask` from `agents/specialist.rs`. -/
structure SpecialistTask where
  task_id : String
  parent_id : String
  tier : ℕ
  persona : String
  objective : String
  token_budget : ℕ
  target_files : List String
  code_context : List CodeBlock
  constraints : List String
  model_provider : Option String
  model_id : Option String
deriving DecidableEq, Repr

/-- `DiffProposal` from `agents/specialist.rs`. -/
structure DiffProposal where
  proposal_id : String
  task_id : String
  agent_uid : String
  file_path : String
  diff_content : String
  intent_description : String
  intent_hash : String
  confidence : ℚ
  tokens_used : ℕ
deriving DecidableEq, Repr

/-- `SpecialistModelOutput` from `agents/specialist.rs`: the parsed LLM JSON. -/
structure SpecialistModelOutput where
  intent_description : Option String
  modified_content : Option String
  changes_summary : Option (List String)
deriving DecidableEq, Repr

/-- The adapter response consumed by the specialist (`llm_adapter.rs`
`AdapterResponse`; the cost and resolved-model fields are not read here). -/
structure AdapterResponse where
  text : String
  input_tokens : Option ℕ
  output_tokens : Option ℕ
deriving DecidableEq, Repr

/-- `RemoteGenerationResult` from `agents/specialist.rs`. -/
structure RemoteGenerationResult where
  intent_description : String
  diff_content : String
  confidence : ℚ
  output_tokens : Option ℕ
deriving DecidableEq, Repr

/-- External collaborators of `run_specialist_task`, passed as explicit inputs:
the `similar`-crate diff (`compute_unified_diff` body) and changed-line count,
the environment flag `remote_model_adapter_enabled()`, the tolerant JSON parse
`parse_specialist_model_output` (built on the external `serde_json`), the
result of the `llm_adapter::generate` call, `hash_intent_embedding` (whose
fixed-precision float serialisation is kept abstract), and the two freshly
drawn UUIDs. -/
structure SpecialistEnv where
  computeDiff : String → String → String → String
  countChanged : String → String → ℕ
  enabled : Bool
  parsedOf : String → Option SpecialistModelOutput
  adapterResult : Except String AdapterResponse
  hashIntent : String → String
  agent_uid : String
  proposal_id : String

/-- `validate_specialist_task` from `agents/specialist.rs` (lines 134-172). -/
def validate_specialist_task (task : SpecialistTask) : Except String Unit :=
  if trimStr task.task_id = "" then .error "taskId is required"
  else if trimStr task.parent_id = "" then .error "parentId is required"
  else if task.tier ≠ 3 then .error "specialist task tier must be 3"
  else if trimStr task.persona = "" then .error "persona is required"
  else if trimStr task.objective = "" then .error "objective is required"
  else if task.token_budget = 0 then .error "tokenBudget must be greater than 0"
  else if task.model_provider.any (fun v => trimStr v = "") then
    .error "modelProvider must not be empty when provided"
  else if task.model_id.any (fun v => trimStr v = "") then
    .error "modelId must not be empty when provided"
  else if task.model_provider.isSome ≠ task.model_id.isSome then
    .error "modelProvider and modelId must be provided together"
  else .ok ()

/-- `model_tag` from `agents/specialist.rs`. -/
def model_tag (task : SpecialistTask) : String :=
  match task.model_provider, task.model_id with
  | some provider, some model_id =>
    " [" ++ trimStr provider ++ ":" ++ trimStr model_id ++ "]"
  | _, _ => ""

/-- `resolve_target_file` from `agents/specialist.rs` (first stored target
file, else the first code-context path, else a placeholder). -/
def resolve_target_file (task : SpecialistTask) : String :=
  match task.target_files.head? with
  | some path => path
  | none =>
    match task.code_context.head? with
    | some block => block.file_path
    | none => "unknown/file.ts"

/-- `estimate_fallback_confidence` from `agents/specialist.rs`. -/
def estimate_fallback_confidence (task : SpecialistTask)
    (target_file_content : Option String) : ℚ :=
  let confidence : ℚ := 42/100
  let confidence := if ¬ task.code_context.isEmpty then confidence + 8/100 else confidence
  let confidence := if ¬ task.constraints.isEmpty then confidence + 5/100 else confidence
  let confidence := if target_file_content.isSome then confidence + 6/100 else confidence
  clampQ confidence (30/100) (65/100)

/-- `estimate_llm_confidence` from `agents/specialist.rs` (lines 218-248); the
changed-line count of the `similar` diff is an explicit input. -/
def estimate_llm_confidence (countChanged : String → String → ℕ)
    (task : SpecialistTask) (original modified : String) : ℚ :=
  let confidence : ℚ := 62/100
  let confidence := if ¬ task.code_context.isEmpty then confidence + 8/100 else confidence
  let confidence := if ¬ task.constraints.isEmpty then confidence + 5/100 else confidence
  let original_lines : ℚ := (linesCount original : ℚ)
  let confidence :=
    if 0 < original_lines then
      let change_ratio : ℚ := (countChanged original modified : ℚ) / original_lines
      if change_ratio < 15/100 then confidence + 12/100
      else if change_ratio < 35/100 then confidence + 6/100
      else if change_ratio > 80/100 then confidence - 10/100
      else confidence
    else confidence
  clampQ confidence (40/100) (95/100)

/-- `estimate_tokens_used` from `agents/specialist.rs` (lines 250-264). -/
def estimate_tokens_used (task : SpecialistTask)
    (target_file_content : Option String) : ℕ :=
  let objective_tokens := splitWhitespaceCount task.objective * 16
  let context_tokens := (task.code_context.map (fun block => strByteLen block.content / 4)).sum
  let file_tokens :=
    match target_file_content with
    | some value => strByteLen value / 6
    | none => 60
  max (min (objective_tokens + context_tokens + file_tokens) task.token_budget) 40

/-- The `tokens` computation of `run_specialist_task` for a remote result
(`agents/specialist.rs` lines 75-84): baseline estimate plus reported output
tokens, `.min(token_budget).max(40)`; the baseline alone when the adapter
reported no token counts. -/
def remote_tokens_used (task : SpecialistTask) (target_file_content : Option String)
    (output_tokens : Option ℕ) : ℕ :=
  let baseline := estimate_tokens_used task target_file_content
  match output_tokens with
  | some ot => max (min (baseline + ot) task.token_budget) 40
  | none => baseline

/-- `strip_code_fences` from `agents/specialist.rs`. -/
def strip_code_fences (input : String) : String :=
  let trimmed := (trimStr input).data
  if charsStartWith trimmed ("```".data) then
    let rest := trimmed.drop 3
    let afterLang :=
      if rest.any (fun c => c = '\n') then (rest.dropWhile (fun c => c ≠ '\n')).drop 1
      else rest
    if charsStartWith afterLang.reverse ("```".data.reverse) then
      trimStr (String.mk (afterLang.take (afterLang.length - 3)))
    else String.mk trimmed
  else String.mk trimmed

/-- `build_fallback_diff` from `agents/specialist.rs` (lines 607-636). -/
def build_fallback_diff (computeDiff : String → String → String → String)
    (file_path : String) (target_file_content : Option String)
    (persona objective : String) : String :=
  let compact_objective :=
    String.mk ((String.intercalate " "
      ((objective.data.splitOnP Char.isWhitespace).map String.mk |>.filter (fun t => t ≠ ""))).data.take 120)
  let extension := ((splitCharList '.' file_path.data).map String.mk).getLastD file_path
  let comment :=
    if extension = "py" then "# AOP(" ++ persona ++ "): " ++ compact_objective
    else if extension = "md" then "<!-- AOP(" ++ persona ++ "): " ++ compact_objective ++ " -->"
    else "// AOP(" ++ persona ++ "): " ++ compact_objective
  let original := target_file_content.getD ""
  let original_normalized := replaceCrLf original
  let modified :=
    if original_normalized = "" then comment ++ "\n"
    else comment ++ "\n" ++ original_normalized
  computeDiff file_path original_normalized modified

/-- The `modified_content` extraction of `try_remote_model_generation`: the
parsed `modifiedContent`, code fences stripped, discarded when blank. -/
def modified_content_of (parsed : Option SpecialistModelOutput) : Option String :=
  ((parsed.bind (fun p => p.modified_content)).map strip_code_fences).filter
    (fun v => trimStr v ≠ "")

/-- The `intent_description` extraction of `try_remote_model_generation`. -/
def intent_description_of (parsed : Option SpecialistModelOutput) (task : SpecialistTask)
    (file_path : String) : String :=
  ((((parsed.bind (fun p => p.intent_description)).map trimStr).filter
    (fun v => v ≠ "")).getD
    (task.persona ++ " proposal for " ++ file_path ++ ": " ++ trimStr task.objective))

/-- The body of `try_remote_model_generation` after `llm_adapter::generate`
returned `Ok(response)` (`agents/specialist.rs` lines 289-376). -/
def remote_generation_core (computeDiff : String → String → String → String)
    (countChanged : String → String → ℕ) (task : SpecialistTask) (file_path : String)
    (target_file_content : Option String) (parsed : Option SpecialistModelOutput)
    (response : AdapterResponse) : Except String RemoteGenerationResult :=
  let intent_description := intent_description_of parsed task file_path
  let modified_content := modified_content_of parsed
  let output_tokens :=
    match response.output_tokens with
    | some ot => some ot
    | none => response.input_tokens.map (fun it => max (it / 6) 1)
  match target_file_content, modified_content with
        | some original, some modified =>
          if trimStr original ≠ trimStr modified then
            let original_normalized := replaceCrLf original
            let modified_normalized := replaceCrLf modified
            let diff := computeDiff file_path original_normalized modified_normalized
            if trimStr diff = "" then
              .error ("LLM returned modifiedContent for " ++ file_path ++
                " but computed diff was empty")
            else
              .ok
                { intent_description
                  diff_content := diff
                  confidence :=
                    estimate_llm_confidence countChanged task original_normalized
                      modified_normalized
                  output_tokens }
          else
            .error ("LLM returned unchanged content for " ++ file_path ++
              " — no modifications produced")
        | none, some modified =>
          let modified_normalized := replaceCrLf modified
          .ok
            { intent_description
              diff_content := computeDiff file_path "" modified_normalized
              confidence := 60/100
              output_tokens }
        | some _, none =>
          let reason := (parsed.bind (fun p => p.intent_description)).getD "no reason provided"
          let raw_excerpt := String.mk (response.text.data.take 300)
          .error ("LLM returned no modifiedContent for " ++ file_path ++ ": " ++ reason ++
            ". Raw response (first 300 chars): " ++ raw_excerpt)
        | none, none =>
          let raw_excerpt := String.mk (response.text.data.take 300)
          .error ("LLM returned no modifiedContent and no file content available for " ++
            file_path ++ ". Raw response (first 300 chars): " ++ raw_excerpt)

/-- `try_remote_model_generation` from `agents/specialist.rs` (lines 266-385),
with the external collaborators supplied by `env`.  `env.adapterResult` stands
for the outcome of the `llm_adapter::generate` call on the prompts built for
this task. -/
def try_remote_model_generation (env : SpecialistEnv) (task : SpecialistTask)
    (file_path : String) (target_file_content : Option String) :
    Except String (Option RemoteGenerationResult) :=
  if ¬ env.enabled then .ok none
  else
    match task.model_provider, task.model_id with
    | some _, some _ =>
      match env.adapterResult with
      | .error e => .error ("LLM adapter failed: " ++ e)
      | .ok response =>
        (remote_generation_core env.computeDiff env.countChanged task file_path
          target_file_content (env.parsedOf response.text) response).map some
    | _, _ => .ok none

/-- `run_specialist_task` from `agents/specialist.rs` (lines 61-126). -/
def run_specialist_task (env : SpecialistEnv) (task : SpecialistTask)
    (target_file_content : Option String) : Except String DiffProposal :=
  match validate_specialist_task task with
  | .error e => .error e
  | .ok _ =>
    let file_path := resolve_target_file task
    match try_remote_model_generation env task file_path target_file_content with
    | .error e => .error e
    | .ok remote_result =>
      let pieces : String × String × ℚ × ℕ :=
        match remote_result with
        | some result =>
          (result.intent_description, result.diff_content, result.confidence,
            remote_tokens_used task target_file_content result.output_tokens)
        | none =>
          (task.persona ++ model_tag task ++ " proposal for " ++ file_path ++ ": " ++
              trimStr task.objective,
            build_fallback_diff env.computeDiff file_path target_file_content task.persona
              task.objective,
            estimate_fallback_confidence task target_file_content,
            estimate_tokens_used task target_file_content)
      .ok
        { proposal_id := env.proposal_id
          task_id := task.task_id
          agent_uid := env.agent_uid
          file_path
          diff_content := pieces.2.1
          intent_description := pieces.1
          intent_hash := env.hashIntent pieces.1
          confidence := pieces.2.2.1
          tokens_used := pieces.2.2.2 }

/-- `cosine_similarity` from `agents/specialist.rs` (lines 638-652). -/
noncomputable def cosine_similarity (a b : List ℝ) : ℝ :=
  if a.isEmpty ∨ b.isEmpty ∨ a.length ≠ b.length then 0
  else if Real.sqrt ((a.map (fun v => v * v)).sum) = 0 ∨
      Real.sqrt ((b.map (fun v => v * v)).sum) = 0 then 0
  else ((a.zip b).map (fun p => p.1 * p.2)).sum /
    (Real.sqrt ((a.map (fun v => v * v)).sum) * Real.sqrt ((b.map (fun v => v * v)).sum))

/-- `semantic_distance` from `agents/specialist.rs` (lines 128-132):
`(1 − cosine(embed a, embed b)).clamp(0, 1)`. -/
noncomputable def semantic_distance (a b : DiffProposal) : ℝ :=
  min (max (1 - cosine_similarity (Indexer.embed_text a.intent_description)
    (Indexer.embed_text b.intent_description)) 0) 1

end Specialist

namespace DomainLeader
/-! ### `agents/domain_leader.rs` — conflict detection and status aggregation -/

/-- `ConflictReport` from `agents/mod.rs`; the human-readable `description`
string (pure fixed-precision formatting of the distance) is elided. -/
structure ConflictReport where
  agent_a : String
  agent_b : String
  semantic_distance : ℝ
  requires_human_review : Bool

instance : Inhabited Specialist.DiffProposal :=
  ⟨{ proposal_id := "", task_id := "", agent_uid := "", file_path := "", diff_content := "",
     intent_description := "", intent_hash := "", confidence := 0, tokens_used := 0 }⟩

/-- The unordered index pairs `(a, b)`, `a < b`, in the visit order of the
double loop in `detect_conflict` (`for a in 0..n`, `for b in a+1..n`). -/
def indexPairs (n : ℕ) : List (ℕ × ℕ) :=
  (List.range n).flatMap (fun a => ((List.range n).drop (a + 1)).map (fun b => (a, b)))

/-- The fold step of `detect_conflict`: keep the strongest (first maximal)
pair seen so far (`strongest.is_none_or(|(_,_,current)| distance > current)`). -/
noncomputable def strongestStep (proposals : List Specialist.DiffProposal)
    (st : Option (ℕ × ℕ × ℝ)) (p : ℕ × ℕ) : Option (ℕ × ℕ × ℝ) :=
  match st with
  | none => some (p.1, p.2, Specialist.semantic_distance (proposals.getD p.1 default)
      (proposals.getD p.2 default))
  | some (a, b, current) =>
    if Specialist.semantic_distance (proposals.getD p.1 default)
        (proposals.getD p.2 default) > current then
      some (p.1, p.2, Specialist.semantic_distance (proposals.getD p.1 default)
        (proposals.getD p.2 default))
    else some (a, b, current)

/-- `detect_conflict` from `agents/domain_leader.rs` (lines 916-949). -/
noncomputable def detect_conflict (proposals : List Specialist.DiffProposal) :
    Option ConflictReport :=
  if proposals.length < 2 then none
  else
    match (indexPairs proposals.length).foldl (strongestStep proposals) none with
    | none => none
    | some (a_idx, b_idx, distance) =>
      if distance ≤ 3/10 then none
      else some
        { agent_a := (proposals.getD a_idx default).agent_uid
          agent_b := (proposals.getD b_idx default).agent_uid
          semantic_distance := distance
          requires_human_review := true }

/-- The multiset of pairwise semantic distances of a proposal list, in the
visit order of `detect_conflict` (vocabulary for stating its specification). -/
noncomputable def pair_distances (proposals : List Specialist.DiffProposal) : List ℝ :=
  (indexPairs proposals.length).map (fun p =>
    Specialist.semantic_distance (proposals.getD p.1 default) (proposals.getD p.2 default))

/-- `summarize_status` from `agents/domain_leader.rs` (lines 951-959). -/
def summarize_status (proposals : List Specialist.DiffProposal)
    (conflict : Option ConflictReport) : String :=
  if proposals.isEmpty then "blocked"
  else if conflict.isSome then "consensus_failed"
  else "ready_for_review"

end DomainLeader

namespace MutationsDb
/-! ### `db/mutations.rs` — the mutation store -/

/-- `MutationStatus` from `db/mutations.rs`. -/
inductive MutationStatus where
  | proposed
  | validated
  | validated_no_tests
  | applied
  | rejected
deriving DecidableEq, Repr

/-- `MutationStatus::as_str`. -/
def MutationStatus.as_str : MutationStatus → String
  | .proposed => "proposed"
  | .validated => "validated"
  | .validated_no_tests => "validated_no_tests"
  | .applied => "applied"
  | .rejected => "rejected"

/-- The five status strings a mutation may carry. -/
def mutation_status_strings : List String :=
  ["proposed", "validated", "validated_no_tests", "applied", "rejected"]

/-- `MutationRecord` from `db/mutations.rs`. -/
structure MutationRecord where
  id : String
  task_id : String
  agent_uid : String
  file_path : String
  diff_content : String
  intent_description : Option String
  intent_hash : Option String
  confidence : ℚ
  test_result : Option String
  test_exit_code : Option ℤ
  rejection_reason : Option String
  rejected_at_step : Option String
  status : String
  proposed_at : ℤ
  applied_at : Option ℤ
deriving DecidableEq, Repr

/-- `CreateMutationInput` from `db/mutations.rs`. -/
structure CreateMutationInput where
  task_id : String
  agent_uid : String
  file_path : String
  diff_content : String
  intent_description : Option String
  intent_hash : Option String
  confidence : ℚ
deriving DecidableEq, Repr

/-- `UpdateMutationStatusInput` from `db/mutations.rs`. -/
structure UpdateMutationStatusInput where
  mutation_id : String
  status : MutationStatus
  test_result : Option String
  test_exit_code : Option ℤ
  rejection_reason : Option String
  rejected_at_step : Option String
deriving DecidableEq, Repr

/-- `validate_create_mutation_input` from `db/mutations.rs` (lines 211-229). -/
def validate_create_mutation_input (input : CreateMutationInput) : Except String Unit :=
  if trimStr input.task_id = "" then .error "taskId is required"
  else if trimStr input.agent_uid = "" then .error "agentUid is required"
  else if trimStr input.file_path = "" then .error "filePath is required"
  else if trimStr input.diff_content = "" then .error "diffContent is required"
  else if ¬ (0 ≤ input.confidence ∧ input.confidence ≤ 1) then
    .error "confidence must be between 0.0 and 1.0"
  else .ok ()

/-- The row `create_mutation` inserts (`db/mutations.rs` lines 76-114), given
the freshly drawn UUID and the insertion timestamp: status `proposed`, no test
or rejection data, `applied_at` NULL. -/
def create_mutation (input : CreateMutationInput) (id : String) (now : ℤ) :
    Except String MutationRecord :=
  match validate_create_mutation_input input with
  | .error e => .error e
  | .ok _ => .ok
    { id
      task_id := trimStr input.task_id
      agent_uid := trimStr input.agent_uid
      file_path := trimStr input.file_path
      diff_content := trimStr input.diff_content
      intent_description := input.intent_description.map trimStr
      intent_hash := input.intent_hash.map trimStr
      confidence := input.confidence
      test_result := none
      test_exit_code := none
      rejection_reason := none
      rejected_at_step := none
      status := MutationStatus.proposed.as_str
      proposed_at := now
      applied_at := none }

/-- The row update performed by `update_mutation_status` on the matched
mutation (`db/mutations.rs` lines 116-163): merge the optional test/rejection
fields into the current row, set the new status, and set `applied_at` to the
current timestamp exactly when the new status is `applied` (keeping the old
value otherwise). -/
def apply_update_mutation (current : MutationRecord) (input : UpdateMutationStatusInput)
    (now : ℤ) : MutationRecord :=
  { current with
    test_result := input.test_result.or current.test_result
    test_exit_code := input.test_exit_code.or current.test_exit_code
    rejection_reason := input.rejection_reason.or current.rejection_reason
    rejected_at_step := input.rejected_at_step.or current.rejected_at_step
    status := input.status.as_str
    applied_at := if input.status = .applied then some now else current.applied_at }

/-- A sequence of `update_mutation_status` calls applied to one record. -/
def run_updates (m : MutationRecord) (updates : List (UpdateMutationStatusInput × ℤ)) :
    MutationRecord :=
  updates.foldl (fun acc u => apply_update_mutation acc u.1 u.2) m

/-- The claimed store invariant: the status is one of the five statuses, and
`applied_at` is set exactly when the status is `applied`. -/
def mutation_invariant (m : MutationRecord) : Prop :=
  m.status ∈ mutation_status_strings ∧ (m.applied_at ≠ none ↔ m.status = "applied")

/-- The documented transition discipline (`applied` and `rejected` are
terminal; the pipeline refuses to touch them): along the trace, no update is
applied to a record already in status `applied`.  (Updating out of `rejected`
turns out not to threaten the invariant, so only `applied` must be terminal.) -/
def applied_terminal_trace : MutationRecord → List (UpdateMutationStatusInput × ℤ) → Bool
  | _, [] => true
  | m, u :: rest =>
    decide (m.status ≠ "applied") && applied_terminal_trace (apply_update_mutation m u.1 u.2) rest

end MutationsDb

namespace TasksDb

/-- `UpdateTaskOutcomeInput` from `db/tasks.rs`. -/
structure UpdateTaskOutcomeInput where
  task_id : String
  status : TaskStatus
  token_usage : Option ℤ
  context_efficiency : Option ℚ
  compliance_score : Option ℤ
  checksum_before : Option String
  checksum_after : Option String
  error_message : Option String

/-- The row update performed by `update_task_outcome` on the matched task
(`db/tasks.rs` lines 430-471): each optional field falls back to the current
row value (checksum and error fields via `Option::or`). -/
def apply_update_task_outcome (current : TaskRecord) (input : UpdateTaskOutcomeInput)
    (now : ℤ) : TaskRecord :=
  { current with
    status := input.status.as_str
    token_usage := input.token_usage.getD current.token_usage
    context_efficiency := input.context_efficiency.getD current.context_efficiency
    compliance_score := input.compliance_score.getD current.compliance_score
    checksum_before := input.checksum_before.or current.checksum_before
    checksum_after := input.checksum_after.or current.checksum_after
    error_message := input.error_message.or current.error_message
    updated_at := now }

end TasksDb

namespace Pipeline
/-! ### `mutation_pipeline.rs` — the mutation validation pipeline

The sqlite pool is modelled as an explicit `Store`; the filesystem, the git
shadow run, the embedding-based similarity score and the apply/commit step are
supplied through `PipelineEnv` (they are external effects of the pipeline). -/

/-- A row of the audit-event table written by `metrics::record_audit_event`. -/
structure AuditEvent where
  actor : String
  event : String
  ref_id : Option String
  payload : Option String
deriving DecidableEq, Repr

/-- The database state the pipeline reads and writes. -/
structure Store where
  tasks : List TasksDb.TaskRecord
  mutations : List MutationsDb.MutationRecord
  audit : List AuditEvent

/-- `get_mutation_by_id` from `db/mutations.rs`. -/
def get_mutation_by_id (s : Store) (mutation_id : String) :
    Except String MutationsDb.MutationRecord :=
  match s.mutations.find? (fun m => m.id = mutation_id) with
  | some m => .ok m
  | none => .error ("Mutation '" ++ mutation_id ++ "' not found")

/-- `get_task_by_id` from `db/tasks.rs`. -/
def get_task_by_id (s : Store) (task_id : String) : Except String TasksDb.TaskRecord :=
  match s.tasks.find? (fun t => t.id = task_id) with
  | some t => .ok t
  | none => .error ("Task '" ++ task_id ++ "' not found")

/-- `metrics::record_audit_event`: append a row to the audit table. -/
def record_audit_event (s : Store) (actor event : String) (ref_id payload : Option String) :
    Store :=
  { s with audit := s.audit ++ [{ actor, event, ref_id, payload }] }

/-- `update_mutation_status` from `db/mutations.rs` at the store level. -/
def store_update_mutation_status (s : Store) (input : MutationsDb.UpdateMutationStatusInput)
    (now : ℤ) : Except String (Store × MutationsDb.MutationRecord) :=
  if trimStr input.mutation_id = "" then .error "mutationId is required"
  else
    match get_mutation_by_id s (trimStr input.mutation_id) with
    | .error e => .error e
    | .ok current =>
      let updated := MutationsDb.apply_update_mutation current input now
      .ok ({ s with mutations := s.mutations.map (fun m => if m.id = current.id then updated else m) },
        updated)

/-- `update_task_outcome` from `db/tasks.rs` at the store level. -/
def store_update_task_outcome (s : Store) (input : TasksDb.UpdateTaskOutcomeInput)
    (now : ℤ) : Except String (Store × TasksDb.TaskRecord) :=
  if trimStr input.task_id = "" then .error "taskId is required"
  else
    match get_task_by_id s (trimStr input.task_id) with
    | .error e => .error e
    | .ok current =>
      let updated := TasksDb.apply_update_task_outcome current input now
      .ok ({ s with tasks := s.tasks.map (fun t => if t.id = current.id then updated else t) },
        updated)

/-- `RunMutationPipelineInput` from `mutation_pipeline.rs`. -/
structure RunMutationPipelineInput where
  mutation_id : String
  target_project : String
  tier1_approved : Bool
  ci_command : Option String
  ci_args : Option (List String)

/-- `PipelineStepResult` from `mutation_pipeline.rs`. -/
structure PipelineStepResult where
  step : String
  status : String
  details : String
deriving DecidableEq, Repr

/-- Build one `PipelineStepResult`. -/
def mkStep (step status details : String) : PipelineStepResult := { step, status, details }

/-- `ShadowOutcome` from `mutation_pipeline.rs`. -/
structure ShadowOutcome where
  status : MutationsDb.MutationStatus
  test_result : String
  test_exit_code : Option ℤ
  shadow_dir : String

/-- `MutationPipelineResult` from `mutation_pipeline.rs`. -/
structure MutationPipelineResult where
  mutation : MutationsDb.MutationRecord
  task : TasksDb.TaskRecord
  steps : List PipelineStepResult
  shadow_dir : Option String

/-- A filesystem as the path functions see it: existence, canonicalisation
(`fs::canonicalize` composed with the extended-length-prefix strip), and file
contents as bytes.  Paths are component lists. -/
structure FileSys where
  exists_at : List String → Bool
  canonicalize : List String → Except String (List String)
  bytes_at : List String → List ℕ

/-- The external effects of one `run_mutation_pipeline` call: the filesystem
before and after the apply step, the canonicalised target root
(`normalize_target_root(input.target_project)`), the outcome of the shadow
test, the semantic-similarity score (`f32` modelled as an exact rational), the
outcome of `apply_and_commit_mutation`, and the wall clock (a single timestamp
for the call). -/
structure PipelineEnv where
  fs_before : FileSys
  fs_after : FileSys
  normalize_root : Except String (List String)
  shadow : Except String ShadowOutcome
  semantic : Except String ℚ
  apply_outcome : Except String String
  now : ℤ

/-- `SEMANTIC_THRESHOLD` from `mutation_pipeline.rs`. -/
def SEMANTIC_THRESHOLD : ℚ := 8/100

/-- `resolve_target_file` from `mutation_pipeline.rs` (lines 627-662): refuse
empty paths and paths containing `..`; for existing files canonicalise and
insist the result stays under the canonical project root; for new files insist
the joined path starts with the project root. -/
def resolve_target_file (fs : FileSys) (project_root : List String)
    (relative_file_path : String) : Except String (List String) :=
  if trimStr relative_file_path = "" then .error "mutation file path is empty"
  else if containsSubstr relative_file_path ".." then
    .error "mutation file path cannot contain '..'"
  else
    let path := project_root ++ (splitSlash relative_file_path).filter (fun part => part ≠ "")
    if fs.exists_at path then
      match fs.canonicalize path with
      | .error e => .error ("Failed to resolve mutation file: " ++ e)
      | .ok canonicalized =>
        let canonical_root :=
          match fs.canonicalize project_root with
          | .ok r => r
          | .error _ => project_root
        if canonical_root.isPrefixOf canonicalized then .ok canonicalized
        else .error "mutation file path escapes target project root"
    else
      if project_root.isPrefixOf path then .ok path
      else .error "mutation file path escapes target project root"

/-- Lowercase hex rendering of a byte (for `format!("{:x}", digest)`). -/
def hexDigit (n : ℕ) : Char := "0123456789abcdef".data.getD n 'x'

/-- Lowercase hex rendering of a byte list. -/
def hexOfBytes (bs : List ℕ) : String :=
  String.mk (bs.flatMap (fun b => [hexDigit (b / 16), hexDigit (b % 16)]))

/-- `checksum_for_target_file` from `mutation_pipeline.rs` (lines 583-598):
resolve the file under the normalised root, return the sentinel `new_file`
when it does not exist, else the SHA-256 of its bytes in hex. -/
def checksum_for_target_file (fs : FileSys) (target_root : Except String (List String))
    (relative_file_path : String) : Except String String :=
  match target_root with
  | .error e => .error e
  | .ok root =>
    match resolve_target_file fs root relative_file_path with
    | .error e => .error e
    | .ok target_file =>
      if ¬ fs.exists_at target_file then .ok "new_file"
      else .ok (hexOfBytes (Sha256.sha256 (fs.bytes_at target_file)))

/-- `Path::extension()` of the final component, as a string (empty when the
file name has no extension, e.g. `Makefile` or `.gitignore`). -/
def path_extension (file_path : String) : String :=
  let file_name := ((splitSlash file_path).getLastD "")
  let parts := splitCharList '.' file_name.data
  match parts with
  | [] => ""
  | [_] => ""
  | first :: restParts =>
    if first = [] ∧ restParts.length = 1 then ""
    else String.mk (restParts.getLastD [])

/-- `normalize_patch_line_endings` from `mutation_pipeline.rs`. -/
def normalize_patch_line_endings (patch : String) : String :=
  let normalized := replaceCrLf patch
  if normalized.data.getLast? = some '\n' then normalized else normalized ++ "\n"

/-- `validate_patch_format` from `mutation_pipeline.rs` (lines 821-837). -/
def validate_patch_format (patch : String) : Except String Unit :=
  if trimStr patch = "" then .error "Patch content is empty."
  else if ¬ (containsSubstr patch "--- " ∧ containsSubstr patch "+++ ") then
    .error "Patch is missing unified diff headers (--- / +++)"
  else if ¬ containsSubstr patch "@@ " then .error "Patch is missing hunk headers (@@)"
  else .ok ()

/-- `run_tier2_compliance_check` from `mutation_pipeline.rs` (lines 479-509). -/
def run_tier2_compliance_check (task : TasksDb.TaskRecord)
    (mutation : MutationsDb.MutationRecord) : Except String Unit :=
  let extension := toLowerStr (path_extension mutation.file_path)
  let allowed := ["ts", "tsx", "js", "jsx", "rs", "json", "css", "md", "py", "go", "java", "toml"]
  if ¬ allowed.any (fun v => v = extension) then
    .error ("File extension '." ++ extension ++ "' is not allowed by compliance rules.")
  else
    let diff := toLowerStr mutation.diff_content
    if containsSubstr diff "<<<<<<<" ∨ containsSubstr diff ">>>>>>>" then
      .error "Diff contains unresolved conflict markers."
    else if task.domain = "auth" ∧ (containsSubstr diff "bypass" ∨
        containsSubstr diff "disable_auth" ∨ containsSubstr diff "skip auth") then
      .error "Auth mutation appears to bypass authentication controls."
    else if task.domain = "database" ∧ (containsSubstr diff "drop table" ∨
        containsSubstr diff "truncate ") then
      .error "Database mutation contains destructive statements."
    else .ok ()

/-- Replace double quotes by single quotes (`reason.replace('"', "'")`). -/
def quoteToApos (s : String) : String :=
  String.mk (s.data.map (fun c => if c = '"' then Char.ofNat 39 else c))

/-- `reject_pipeline` from `mutation_pipeline.rs` (lines 877-934): mark the
mutation rejected with the reason and step, record an audit event, and fail
the task with compliance 0.  Note the reject path returns `Ok` (the pipeline
result reports the rejection through the mutation and task records). -/
def reject_pipeline (s : Store) (mutation : MutationsDb.MutationRecord)
    (task : TasksDb.TaskRecord) (steps : List PipelineStepResult)
    (rejected_step reason : String) (test_result : Option String)
    (test_exit_code : Option ℤ) (now : ℤ) : Store × Except String MutationPipelineResult :=
  match store_update_mutation_status s
    { mutation_id := mutation.id
      status := .rejected
      test_result
      test_exit_code
      rejection_reason := some reason
      rejected_at_step := some rejected_step } now with
  | .error e => (s, .error e)
  | .ok (s1, updated_mutation) =>
    let s2 := record_audit_event s1 "mutation_pipeline" "mutation_rejected"
      (some updated_mutation.id)
      (some ("\x7b\"step\":\"" ++ rejected_step ++ "\",\"reason\":\"" ++ quoteToApos reason ++
        "\"\x7d"))
    match store_update_task_outcome s2
      { task_id := task.id
        status := .failed
        token_usage := none
        context_efficiency := none
        compliance_score := some 0
        checksum_before := none
        checksum_after := none
        error_message := some reason } now with
    | .error e => (s2, .error e)
    | .ok (s3, updated_task) =>
      (s3, .ok { mutation := updated_mutation, task := updated_task, steps, shadow_dir := none })

/-- The apply phase of `run_mutation_pipeline` (everything after the
`tier1_approved` gate, lines 254-328): checksum before, apply and commit,
checksum after, mark applied, complete the task. -/
def pipeline_apply_phase (env : PipelineEnv) (s : Store)
    (updated_mutation : MutationsDb.MutationRecord) (task : TasksDb.TaskRecord)
    (shadow : ShadowOutcome) (steps : List PipelineStepResult) :
    Store × Except String MutationPipelineResult :=
  let steps := steps ++ [mkStep "tier1_final_approval" "passed" "Tier 1 approval granted."]
  match checksum_for_target_file env.fs_before env.normalize_root updated_mutation.file_path with
  | .error e => (s, .error e)
  | .ok checksum_before =>
    match env.apply_outcome with
    | .error error =>
      let steps := steps ++ [mkStep "apply" "failed" (error)]
      reject_pipeline s updated_mutation task steps "apply" error (some shadow.test_result)
        shadow.test_exit_code env.now
    | .ok apply_details =>
      let steps := steps ++ [mkStep "apply" "passed" (apply_details)]
      match checksum_for_target_file env.fs_after env.normalize_root
        updated_mutation.file_path with
      | .error e => (s, .error e)
      | .ok checksum_after =>
        match store_update_mutation_status s
          { mutation_id := updated_mutation.id
            status := .applied
            test_result := some shadow.test_result
            test_exit_code := shadow.test_exit_code
            rejection_reason := none
            rejected_at_step := none } env.now with
        | .error e => (s, .error e)
        | .ok (s1, applied_mutation) =>
          match store_update_task_outcome s1
            { task_id := task.id
              status := .completed
              token_usage := some (task.token_usage + 450)
              context_efficiency := some 1
              compliance_score := some 85
              checksum_before := some checksum_before
              checksum_after := some checksum_after
              error_message := none } env.now with
          | .error e => (s1, .error e)
          | .ok (s2, updated_task) =>
            -- `indexer::index_project` is fired best-effort and ignored
            (s2, .ok { mutation := applied_mutation, task := updated_task, steps := steps,
                       shadow_dir := some shadow.shadow_dir })

/-- `run_mutation_pipeline` from `mutation_pipeline.rs` (lines 75-329), as a
state transformer over the store.  External effects are read from `env`; every
early `Err` return carries the store unchanged since the effect. -/
def run_mutation_pipeline (env : PipelineEnv) (s : Store)
    (input : RunMutationPipelineInput) : Store × Except String MutationPipelineResult :=
  if trimStr input.mutation_id = "" then (s, .error "mutationId is required")
  else if trimStr input.target_project = "" then (s, .error "targetProject is required")
  else
    match get_mutation_by_id s (trimStr input.mutation_id) with
    | .error e => (s, .error e)
    | .ok mutation =>
      match get_task_by_id s (trimStr mutation.task_id) with
      | .error e => (s, .error e)
      | .ok task =>
        if mutation.status = "applied" then
          (s, .error ("Mutation '" ++ mutation.id ++ "' is already applied."))
        else if mutation.status = "rejected" then
          (s, .error ("Mutation '" ++ mutation.id ++ "' is already rejected."))
        else
          let s := record_audit_event s "mutation_pipeline" "pipeline_started"
            (some mutation.id) (some ("\x7b\"taskId\":\"" ++ task.id ++ "\"\x7d"))
          match env.shadow with
          | .error error =>
            let steps := [mkStep "shadow_test" "failed" (error)]
            reject_pipeline s mutation task steps "shadow_test" error none none env.now
          | .ok shadow =>
            let steps := [mkStep "shadow_test" "passed" (shadow.test_result)]
            match env.semantic with
            | .error error =>
              let steps := steps ++ [mkStep "semantic_regression" "failed" (error)]
              reject_pipeline s mutation task steps "semantic_regression" error
                (some shadow.test_result) shadow.test_exit_code env.now
            | .ok semantic_score =>
              if semantic_score < SEMANTIC_THRESHOLD then
                let message := "Intent similarity is below threshold."
                let steps := steps ++ [mkStep "semantic_regression" "failed" (message)]
                reject_pipeline s mutation task steps "semantic_regression" message
                  (some shadow.test_result) shadow.test_exit_code env.now
              else
                let steps := steps ++ [mkStep "semantic_regression" "passed" "Intent similarity passed."]
                match run_tier2_compliance_check task mutation with
                | .error error =>
                  let steps := steps ++ [mkStep "tier2_compliance" "failed" (error)]
                  reject_pipeline s mutation task steps "tier2_compliance" error
                    (some shadow.test_result) shadow.test_exit_code env.now
                | .ok _ =>
                  let steps := steps ++ [mkStep "tier2_compliance" "passed" "Compliance checks passed."]
                  match store_update_mutation_status s
                    { mutation_id := mutation.id
                      status := shadow.status
                      test_result := some shadow.test_result
                      test_exit_code := shadow.test_exit_code
                      rejection_reason := none
                      rejected_at_step := none } env.now with
                  | .error e => (s, .error e)
                  | .ok (s1, updated_mutation) =>
                    let steps := steps ++ [mkStep "validation_status" "passed"
                      ("Mutation marked as " ++ updated_mutation.status ++ ".")]
                    if ¬ input.tier1_approved then
                      match store_update_task_outcome s1
                        { task_id := task.id
                          status := .paused
                          token_usage := none
                          context_efficiency := none
                          compliance_score := some 70
                          checksum_before := none
                          checksum_after := none
                          error_message := some "Waiting for Tier 1 approval before apply." }
                        env.now with
                      | .error e => (s1, .error e)
                      | .ok (s2, updated_task) =>
                        let steps := steps ++ [mkStep "tier1_final_approval" "pending" "Validation complete. Tier 1 approval required."]
                        (s2, .ok { mutation := updated_mutation, task := updated_task,
                                   steps := steps, shadow_dir := some shadow.shadow_dir })
                    else
                      pipeline_apply_phase env s1 updated_mutation task shadow steps

end Pipeline

/-! ### Concrete fixtures used by counterexamples and witnesses -/

/-- A specialist task with a token budget below 40 (all inputs valid:
`create_task_record` only requires a positive budget). -/
def fixture_task9 : Specialist.SpecialistTask :=
  { task_id := "t3", parent_id := "t2", tier := 3, persona := "generalist", objective := "x",
    token_budget := 10, target_files := ["src/a.ts"], code_context := [], constraints := [],
    model_provider := some "openai", model_id := some "gpt-test" }

/-- A specialist task with an ordinary budget. -/
def fixture_task5 : Specialist.SpecialistTask :=
  { fixture_task9 with task_id := "t5", token_budget := 1200 }

/-- A specialist environment whose adapter answered with modified content. -/
def fixture_env9 : Specialist.SpecialistEnv :=
  { computeDiff := fun _ _ _ => "--- a/src/a.ts\n+++ b/src/a.ts\n@@ -1 +1 @@\n-\n+x\n"
    countChanged := fun _ _ => 1
    enabled := true
    parsedOf := fun _ => some
      { intent_description := some "intent", modified_content := some "modified",
        changes_summary := none }
    adapterResult := .ok { text := "raw", input_tokens := none, output_tokens := some 5 }
    hashIntent := fun _ => "hash"
    agent_uid := "agent-1"
    proposal_id := "prop-1" }

/-- A specialist environment whose adapter answered without modified content. -/
def fixture_env5 : Specialist.SpecialistEnv :=
  { fixture_env9 with
    parsedOf := fun _ => some
      { intent_description := some "cannot do it", modified_content := none,
        changes_summary := none } }

/-- An executing tier-2 task record. -/
def fixture_task_exec : TasksDb.TaskRecord :=
  { id := "t1", parent_id := none, tier := 2, domain := "auth", objective := "obj",
    status := "executing", token_budget := 100, token_usage := 0, context_efficiency := 0,
    risk_factor := 0, compliance_score := 0, checksum_before := none, checksum_after := none,
    error_message := none, retry_count := 0, created_at := 0, updated_at := 0,
    target_files := none }

/-- An already-applied mutation owned by `fixture_task_exec`. -/
def fixture_mut_applied : MutationsDb.MutationRecord :=
  { id := "m1", task_id := "t1", agent_uid := "a1", file_path := "src/a.ts",
    diff_content := "--- a/src/a.ts\n+++ b/src/a.ts\n@@ -1 +1 @@\n-\n+x\n",
    intent_description := some "intent", intent_hash := some "h", confidence := 1,
    test_result := none, test_exit_code := none, rejection_reason := none,
    rejected_at_step := none, status := "applied", proposed_at := 1, applied_at := some 5 }

/-- An already-rejected mutation owned by `fixture_task_exec`. -/
def fixture_mut_rejected : MutationsDb.MutationRecord :=
  { fixture_mut_applied with id := "m2", status := "rejected", applied_at := none }

/-- A store holding the fixture task and mutations. -/
def fixture_store1 : Pipeline.Store :=
  { tasks := [fixture_task_exec], mutations := [fixture_mut_applied, fixture_mut_rejected],
    audit := [] }

/-- A trivial filesystem (nothing exists; canonicalisation is the identity). -/
def fixture_fs : Pipeline.FileSys :=
  { exists_at := fun _ => false, canonicalize := fun p => .ok p, bytes_at := fun _ => [] }

/-- A pipeline environment for calls that stop before any external effect. -/
def fixture_env1 : Pipeline.PipelineEnv :=
  { fs_before := fixture_fs, fs_after := fixture_fs, normalize_root := .ok ["root"],
    shadow := .error "unused", semantic := .error "unused", apply_outcome := .error "unused",
    now := 9 }

/-- A pipeline input naming the applied fixture mutation. -/
def fixture_input1 : Pipeline.RunMutationPipelineInput :=
  { mutation_id := "m1", target_project := "/proj", tier1_approved := true,
    ci_command := none, ci_args := none }

/-- A pipeline input naming the rejected fixture mutation. -/
def fixture_input2 : Pipeline.RunMutationPipelineInput :=
  { fixture_input1 with mutation_id := "m2" }

/-- A valid mutation-creation input. -/
def fixture_cm_input : MutationsDb.CreateMutationInput :=
  { task_id := "t1", agent_uid := "a1", file_path := "src/a.ts",
    diff_content := "--- a/src/a.ts\n+++ b/src/a.ts\n@@ -1 +1 @@\n-\n+x\n",
    intent_description := none, intent_hash := none, confidence := 1 }

/-- The record `create_mutation fixture_cm_input "m1" 1` inserts (the stored
diff content is trimmed by `create_mutation`). -/
def fixture_cm0 : MutationsDb.MutationRecord :=
  { id := "m1", task_id := "t1", agent_uid := "a1", file_path := "src/a.ts",
    diff_content := "--- a/src/a.ts\n+++ b/src/a.ts\n@@ -1 +1 @@\n-\n+x",
    intent_description := none, intent_hash := none, confidence := 1,
    test_result := none, test_exit_code := none, rejection_reason := none,
    rejected_at_step := none, status := "proposed", proposed_at := 1, applied_at := none }

/-- A status-only update to the fixture mutation. -/
def fixture_upd (st : MutationsDb.MutationStatus) : MutationsDb.UpdateMutationStatusInput :=
  { mutation_id := "m1", status := st, test_result := none, test_exit_code := none,
    rejection_reason := none, rejected_at_step := none }

/-- A diff proposal whose intent description is empty (its embedding is the
zero vector). -/
def fixture_p_empty : Specialist.DiffProposal :=
  { proposal_id := "p0", task_id := "t0", agent_uid := "a0", file_path := "src/a.ts",
    diff_content := "d", intent_description := "", intent_hash := "h", confidence := 1,
    tokens_used := 40 }

/-- A diff proposal with a one-token intent description. -/
def fixture_p_foo : Specialist.DiffProposal :=
  { fixture_p_empty with proposal_id := "p1", intent_description := "foo" }

end AOP

/-! ## Theorems -/

namespace AOP

namespace Orchestrator
/-! ### Allocation lemmas: the remainder `while` loop in closed form -/

theorem add_one_pass_length (l : List ℕ) (r : ℕ) : (add_one_pass l r).1.length = l.length := by
  induction l generalizing r with
  | nil => cases r <;> rfl
  | cons x xs ih =>
    cases r with
    | zero => rfl
    | succ r => simpa [add_one_pass] using ih r

theorem add_one_pass_snd (l : List ℕ) (r : ℕ) : (add_one_pass l r).2 = min r l.length := by
  induction l generalizing r with
  | nil => cases r <;> rfl
  | cons x xs ih =>
    cases r with
    | zero => rfl
    | succ r =>
      simp [add_one_pass, ih r, Nat.succ_min_succ]

theorem add_one_pass_getD (l : List ℕ) (r i : ℕ) (hi : i < l.length) :
    (add_one_pass l r).1.getD i 0 =
      if i < r then l.getD i 0 + 1 else l.getD i 0 := by
  induction l generalizing r i with
  | nil => exact absurd hi (by simp)
  | cons x xs ih =>
    cases r with
    | zero => simp [add_one_pass]
    | succ r =>
      cases i with
      | zero => simp [add_one_pass]
      | succ i =>
        have hi' : i < xs.length := Nat.lt_of_succ_lt_succ hi
        simpa [add_one_pass, Nat.succ_lt_succ_iff] using ih r i hi'

theorem distribute_go_succ (l : List ℕ) (gap fuel : ℕ) :
    distribute_go l gap (fuel + 1) =
      if gap = 0 then l
      else if (add_one_pass l gap).2 = 0 then (add_one_pass l gap).1
      else distribute_go (add_one_pass l gap).1 (gap - (add_one_pass l gap).2) fuel := rfl

theorem distribute_go_length (fuel : ℕ) : ∀ (l : List ℕ) (gap : ℕ),
    (distribute_go l gap fuel).length = l.length := by
  induction fuel with
  | zero => intro l gap; rfl
  | succ fuel ih =>
    intro l gap
    rw [distribute_go_succ]
    by_cases hg : gap = 0
    · simp [hg]
    · simp only [hg, if_false]
      by_cases hk : (add_one_pass l gap).2 = 0
      · simp [hk, add_one_pass_length]
      · simp [hk, ih, add_one_pass_length]

theorem distribute_go_getD (fuel : ℕ) : ∀ (gap : ℕ) (l : List ℕ), l ≠ [] → gap ≤ fuel →
    ∀ (i : ℕ), i < l.length →
      (distribute_go l gap fuel).getD i 0 =
        l.getD i 0 + gap / l.length + if i < gap % l.length then 1 else 0 := by
  induction fuel with
  | zero =>
    intro gap l _ hle i hi
    have hg : gap = 0 := Nat.le_zero.mp hle
    subst hg
    simp [distribute_go]
  | succ fuel ih =>
    intro gap l hne hle i hi
    have hn : 0 < l.length := List.length_pos.mpr hne
    rw [distribute_go_succ]
    by_cases hg : gap = 0
    · subst hg; simp
    · simp only [hg, if_false]
      have hk : (add_one_pass l gap).2 = min gap l.length := add_one_pass_snd l gap
      have hkpos : 0 < (add_one_pass l gap).2 := by
        rw [hk]; exact lt_min (Nat.pos_of_ne_zero hg) hn
      have hk0 : ¬ (add_one_pass l gap).2 = 0 := Nat.pos_iff_ne_zero.mp hkpos
      simp only [hk0, if_false]
      have hlen1 : (add_one_pass l gap).1.length = l.length := add_one_pass_length l gap
      have hne1 : (add_one_pass l gap).1 ≠ [] := by
        intro h; rw [h] at hlen1; exact hne (List.length_eq_zero.mp hlen1.symm)
      have hle1 : gap - (add_one_pass l gap).2 ≤ fuel := by
        rw [hk]
        have : 1 ≤ min gap l.length := hkpos.trans_eq hk
        omega
    -- apply the induction hypothesis to the recursive call
      have hi1 : i < (add_one_pass l gap).1.length := by rw [hlen1]; exact hi
      have := ih (gap - (add_one_pass l gap).2) (add_one_pass l gap).1 hne1 hle1 i hi1
      rw [this]
      rw [add_one_pass_getD l gap i hi]
      rw [hk]
      rcases le_or_lt l.length gap with hcase | hcase
      · -- a full pass: every slot receives one increment and the gap shrinks by the length
        have hmin : min gap l.length = l.length := min_eq_right hcase
        have e1 : gap / l.length = (gap - l.length) / l.length + 1 :=
          Nat.div_eq_sub_div hn hcase
        have e2 : gap % l.length = (gap - l.length) % l.length := Nat.mod_eq_sub_mod hcase
        rw [hmin, hlen1, e1, e2, if_pos (lt_of_lt_of_le hi hcase)]
        ring
      · -- a partial pass: only the first `gap` slots receive an increment
        have hmin : min gap l.length = gap := min_eq_left (le_of_lt hcase)
        rw [hmin, hlen1]
        simp only [Nat.sub_self, Nat.zero_div, Nat.zero_mod, Nat.not_lt_zero, if_false,
          Nat.add_zero]
        rw [Nat.div_eq_of_lt hcase, Nat.mod_eq_of_lt hcase]
        by_cases hig : i < gap <;> simp [hig]

theorem distribute_remainder_closed_form (l : List ℕ) (hne : l ≠ []) (gap : ℕ) :
    distribute_remainder l gap =
      l.enum.map (fun p => p.2 + gap / l.length + if p.1 < gap % l.length then 1 else 0) := by
  have hlen : (distribute_remainder l gap).length = l.length := by
    simp only [distribute_remainder]
    exact distribute_go_length gap l gap
  apply List.ext_get
  · rw [hlen, List.length_map, List.enum_length]
  · intro i h1 h2
    have hi : i < l.length := by rw [hlen] at h1; exact h1
    have lhs : (distribute_remainder l gap).getD i 0 =
        l.getD i 0 + gap / l.length + if i < gap % l.length then 1 else 0 := by
      simp only [distribute_remainder]
      exact distribute_go_getD gap gap l hne (le_refl gap) i hi
    rw [List.get_eq_getElem, List.get_eq_getElem, ← List.getD_eq_getElem _ 0 h1,
      ← List.getD_eq_getElem _ 0 h2, lhs]
    rw [List.getD_eq_getElem _ 0 h2, List.getElem_map, List.getElem_enum,
      List.getD_eq_getElem _ 0 hi]

/-- **C3** (amended).  In `generate_plan`, the distributed token budget (the
global budget minus the 10 % overhead and 10 % reserve shares, floored at 1) is
allocated across the planned assignments proportionally to the tier-based
weights the code uses — `2.0` for an assignment of tier ≤ 2 and `1.0` for a
tier-3 assignment — floor-rounded, with the leftover distributed round-robin in
`+1` increments: share `i` equals
`⌊d·wᵢ/W⌋ + gap/n (+1 for the first gap mod n indices)`. -/
theorem generate_plan_budgets_tier_weighted (global : ℕ) (tiers : List ℕ) :
    generate_plan_budgets global tiers = amended_plan_budgets global tiers := by
  rw [generate_plan_budgets, amended_plan_budgets, allocate_token_budgets]
  by_cases hws : (tiers.map generate_plan_tier_weight).isEmpty
  · simp [hws]
  · simp only [hws, if_false]
    have hbase : ((tiers.map generate_plan_tier_weight).map (fun w =>
        ratFloorToNat (((max (generate_plan_distributed_budget global) 1 : ℕ) : ℚ) *
          (w / max (tiers.map generate_plan_tier_weight).sum 1)))) ≠ [] := by
      intro h
      rw [List.map_eq_nil_iff] at h
      rw [h] at hws
      exact hws (by rfl)
    exact distribute_remainder_closed_form _ hbase _

end Orchestrator

/-- **C3** (counterexample).  The claim says `generate_plan` weights the
assignments by `1 + 2.2·risk_factor`; the code weights them by tier (2.0 for
tier ≤ 2, 1.0 for tier 3).  For a 3000-token plan with one tier-2 and one
tier-3 assignment (both of risk 0.22 under `estimate_failure_probability`),
the code allocates `[1600, 800]` while the claimed weighting would allocate
`[1200, 1200]`. -/
theorem generate_plan_budgets_risk_weight_counterexample :
    Orchestrator.generate_plan_budgets 3000 [2, 3] = [1600, 800] ∧
    Orchestrator.claim_plan_budgets 3000
      [Orchestrator.estimate_failure_probability "Improve docs" "Update readme" "platform",
       Orchestrator.estimate_failure_probability "Improve docs" "Add api docs" "api"] =
      [1200, 1200] ∧
    ([1600, 800] : List ℕ) ≠ [1200, 1200] := by
  have h300 : Orchestrator.generate_plan_distributed_budget 3000 = 2400 := by
    rw [Orchestrator.generate_plan_distributed_budget, Orchestrator.plan_overhead_budget,
      ratRoundToNat]
    norm_num
    decide
  have hr1 : Orchestrator.estimate_failure_probability "Improve docs" "Update readme"
      "platform" = 11/50 := by
    have h1 : Orchestrator.contains_any (toLowerStr "Improve docs")
        ["refactor", "rewrite", "migrate", "replace"] = false := by decide
    have h2 : Orchestrator.contains_any (toLowerStr "Improve docs")
        ["performance", "cache", "concurrency"] = false := by decide
    have h3 : Orchestrator.contains_any (toLowerStr "Improve docs")
        ["auth", "security", "session", "token"] = false := by decide
    have h4 : Orchestrator.contains_any (toLowerStr "Update readme")
        ["schema", "migration", "query"] = false := by decide
    have d1 : (("platform" : String) = "auth") = False := eq_false (by decide)
    have d2 : (("platform" : String) = "database") = False := eq_false (by decide)
    have d3 : (("platform" : String) = "testing") = False := eq_false (by decide)
    norm_num [Orchestrator.estimate_failure_probability, clampQ, h1, h2, h3, h4, d1, d2, d3]
  have hr2 : Orchestrator.estimate_failure_probability "Improve docs" "Add api docs"
      "api" = 11/50 := by
    have h1 : Orchestrator.contains_any (toLowerStr "Improve docs")
        ["refactor", "rewrite", "migrate", "replace"] = false := by decide
    have h2 : Orchestrator.contains_any (toLowerStr "Improve docs")
        ["performance", "cache", "concurrency"] = false := by decide
    have h3 : Orchestrator.contains_any (toLowerStr "Improve docs")
        ["auth", "security", "session", "token"] = false := by decide
    have h4 : Orchestrator.contains_any (toLowerStr "Add api docs")
        ["schema", "migration", "query"] = false := by decide
    have d1 : (("api" : String) = "auth") = False := eq_false (by decide)
    have d2 : (("api" : String) = "database") = False := eq_false (by decide)
    have d3 : (("api" : String) = "testing") = False := eq_false (by decide)
    norm_num [Orchestrator.estimate_failure_probability, clampQ, h1, h2, h3, h4, d1, d2, d3]
  refine ⟨?_, ?_, by decide⟩
  · rw [Orchestrator.generate_plan_budgets, h300, show max (2400 : ℕ) 1 = 2400 from rfl]
    have hw : ([2, 3].map Orchestrator.generate_plan_tier_weight) = [(2 : ℚ), 1] := by
      norm_num [Orchestrator.generate_plan_tier_weight]
    rw [Orchestrator.allocate_token_budgets, hw]
    have hf1 : ratFloorToNat (((2400 : ℕ) : ℚ) * (2 / max ([(2 : ℚ), 1].sum) 1)) = 1600 := by
      rw [ratFloorToNat]; norm_num; decide
    have hf2 : ratFloorToNat (((2400 : ℕ) : ℚ) * (1 / max ([(2 : ℚ), 1].sum) 1)) = 800 := by
      rw [ratFloorToNat]; norm_num; decide
    simp only [List.isEmpty, List.map_cons, List.map_nil, hf1, hf2]
    decide
  · rw [hr1, hr2, Orchestrator.claim_plan_budgets, h300,
      show max (2400 : ℕ) 1 = 2400 from rfl]
    have hw : ([11/50, 11/50].map Orchestrator.claim_risk_weight) =
        [(371 : ℚ)/250, 371/250] := by
      norm_num [Orchestrator.claim_risk_weight]
    rw [Orchestrator.allocate_token_budgets, hw]
    have hf : ratFloorToNat (((2400 : ℕ) : ℚ) *
        ((371/250) / max ([(371 : ℚ)/250, 371/250].sum) 1)) = 1200 := by
      rw [ratFloorToNat]; norm_num; decide
    simp only [List.isEmpty, List.map_cons, List.map_nil, hf]
    decide

/-- **C4** (amended).  The tier-2 compliance score equals
`55 + 12·proposals_count + ⌊20·(1 − clamp(risk,0,1))⌋` (the `f32 → i64` cast
truncates the risk term), minus 18 for `consensus_failed` or 30 for `blocked`,
clamped to `[0, 100]`; in particular the score always lies in `[0, 100]`. -/
theorem compliance_score_floored_formula (risk_factor : ℚ) (proposals_count : ℕ)
    (status : String) :
    DomainLeader.compute_compliance_score risk_factor proposals_count status =
      DomainLeader.amended_compliance_score risk_factor proposals_count status ∧
    0 ≤ DomainLeader.compute_compliance_score risk_factor proposals_count status ∧
    DomainLeader.compute_compliance_score risk_factor proposals_count status ≤ 100 := by
  simp only [DomainLeader.compute_compliance_score, DomainLeader.amended_compliance_score]
  rw [mul_comm ((1 : ℚ) - clampQ risk_factor 0 1) 20]
  refine ⟨?_, ?_, ?_⟩ <;> split_ifs <;> omega

/-- **C4** (counterexample).  At risk factor 0.13 with one proposal and status
`ready_for_review`, the code returns 84 while the claimed exact formula
`55 + 12·1 + 20·(1 − 0.13)` evaluates to 84.4 — the claimed equality fails
whenever `20·(1 − risk)` is not an integer. -/
theorem compliance_score_truncation_counterexample :
    DomainLeader.compute_compliance_score (13/100) 1 "ready_for_review" = 84 ∧
    DomainLeader.spec_compliance_score (13/100) 1 "ready_for_review" = 422/5 ∧
    ((422 : ℚ)/5) ≠ ((84 : ℤ) : ℚ) := by
  refine ⟨?_, ?_, by norm_num⟩
  · norm_num [DomainLeader.compute_compliance_score, clampQ]
    rw [if_neg (show ¬ ("ready_for_review" : String) = "consensus_failed" by decide),
      if_neg (show ¬ ("ready_for_review" : String) = "blocked" by decide)]
    omega
  · norm_num [DomainLeader.spec_compliance_score, clampQ]
    rw [if_neg (show ¬ ("ready_for_review" : String) = "consensus_failed" by decide),
      if_neg (show ¬ ("ready_for_review" : String) = "blocked" by decide)]
    norm_num

/-- **C9** (amended).  When the adapter reports output tokens and the task's
token budget is at least 40, the proposal's token count is the input estimate
plus the output tokens clamped to `[40, token_budget]` — in particular it
never exceeds the budget and is never below 40.  (For budgets below 40 the
`min`-then-`max` order makes the floor of 40 win over the budget, see the
counterexample.) -/
theorem remote_tokens_clamped (task : Specialist.SpecialistTask) (content : Option String)
    (ot : ℕ) (h : 40 ≤ task.token_budget) :
    Specialist.remote_tokens_used task content (some ot) =
      min (max (Specialist.estimate_tokens_used task content + ot) 40) task.token_budget ∧
    40 ≤ Specialist.remote_tokens_used task content (some ot) ∧
    Specialist.remote_tokens_used task content (some ot) ≤ task.token_budget := by
  simp only [Specialist.remote_tokens_used]
  omega

/-- Witness for `remote_tokens_clamped` at a concrete task of budget 1200. -/
theorem remote_tokens_clamped_witness :
    40 ≤ fixture_task5.token_budget ∧
    Specialist.remote_tokens_used fixture_task5 (some "") (some 5) ≤
      fixture_task5.token_budget :=
  ⟨by decide, (remote_tokens_clamped fixture_task5 (some "") 5 (by decide)).2.2⟩

/-- **C9** (counterexample).  A specialist task with token budget 10 (valid:
budgets only need to be positive) whose adapter reports 5 output tokens yields
a proposal with `tokens_used = 40`, exceeding the task's budget — the claim
that `tokens_used` never exceeds the budget fails for budgets below 40. -/
theorem remote_tokens_budget_counterexample :
    (Specialist.run_specialist_task fixture_env9 fixture_task9 (some "")).toOption.map
      (fun p => p.tokens_used) = some 40 ∧
    fixture_task9.token_budget = 10 := by
  constructor
  · decide
  · decide

/-- **C2**.  For every stored task (its status is one of the five status
strings) whose status is not `completed`, `failed` or `paused`, `pause`
followed by `resume` restores the original status: pause encodes the prior
status in `error_message` behind the `__aop_paused_prev_status:` sentinel and
sets the status to `paused`; resume decodes the sentinel, restores the prior
status and clears `error_message`; an absent or malformed sentinel decodes to
`executing`. -/
theorem control_task_pause_resume_roundtrip (t : TasksDb.TaskRecord)
    (reason1 reason2 : String) (now1 now2 : ℤ)
    (hvalid : ∃ st : TasksDb.TaskStatus, t.status = st.as_str)
    (hnc : t.status ≠ "completed") (hnf : t.status ≠ "failed") (hnp : t.status ≠ "paused") :
    (∃ t1 t2, TasksDb.control_action_apply "pause" t reason1 now1 = some t1 ∧
      TasksDb.control_action_apply "resume" t1 reason2 now2 = some t2 ∧
      t1.status = "paused" ∧
      t1.error_message = some (TasksDb.PAUSE_MARKER ++ t.status) ∧
      t2.status = t.status ∧ t2.error_message = none) ∧
    TasksDb.paused_previous_status none = TasksDb.TaskStatus.executing ∧
    (∀ raw, startsWithStr (trimStr raw) TasksDb.PAUSE_MARKER = false →
      TasksDb.paused_previous_status (some raw) = TasksDb.TaskStatus.executing) := by
  refine ⟨?_, rfl, ?_⟩
  · obtain ⟨st, hst⟩ := hvalid
    have hpause : TasksDb.control_action_apply "pause" t reason1 now1 =
        some (TasksDb.update_task_status t .paused
          (some (TasksDb.PAUSE_MARKER ++ t.status)) now1) := by
      unfold TasksDb.control_action_apply
      rw [if_pos rfl, if_neg (by simp [hnc, hnf, hnp])]
    refine ⟨TasksDb.update_task_status t .paused
      (some (TasksDb.PAUSE_MARKER ++ t.status)) now1, ?_⟩
    have hdec : TasksDb.paused_previous_status
        (some (TasksDb.PAUSE_MARKER ++ t.status)) = st := by
      rw [hst]
      cases st with
      | pending => decide
      | executing => decide
      | completed => exact absurd hst hnc
      | failed => exact absurd hst hnf
      | paused => exact absurd hst hnp
    have h1s : (TasksDb.update_task_status t .paused
        (some (TasksDb.PAUSE_MARKER ++ t.status)) now1).status = "paused" := rfl
    have hresume : TasksDb.control_action_apply "resume"
        (TasksDb.update_task_status t .paused
          (some (TasksDb.PAUSE_MARKER ++ t.status)) now1) reason2 now2 =
        some (TasksDb.update_task_status
          (TasksDb.update_task_status t .paused
            (some (TasksDb.PAUSE_MARKER ++ t.status)) now1) st none now2) := by
      unfold TasksDb.control_action_apply
      rw [if_neg (show ¬ ("resume" : String) = "pause" by decide), if_pos rfl,
        if_neg (not_not_intro h1s)]
      exact congrArg (fun s2 => some (TasksDb.update_task_status
        (TasksDb.update_task_status t .paused
          (some (TasksDb.PAUSE_MARKER ++ t.status)) now1) s2 none now2)) hdec
    refine ⟨_, hpause, hresume, rfl, rfl, ?_, rfl⟩
    exact hst.symm
  · intro raw hraw
    simp only [TasksDb.paused_previous_status]
    rw [hraw]
    simp

/-- Witness for `control_task_pause_resume_roundtrip` on a concrete executing
task. -/
theorem control_task_pause_resume_roundtrip_witness :
    fixture_task_exec.status ≠ "completed" ∧
    (∃ t1 t2, TasksDb.control_action_apply "pause" fixture_task_exec "r" 1 = some t1 ∧
      TasksDb.control_action_apply "resume" t1 "r" 2 = some t2 ∧
      t1.status = "paused" ∧
      t1.error_message = some (TasksDb.PAUSE_MARKER ++ fixture_task_exec.status) ∧
      t2.status = fixture_task_exec.status ∧ t2.error_message = none) :=
  ⟨by decide,
    (control_task_pause_resume_roundtrip fixture_task_exec "r" "r" 1 2
      ⟨TasksDb.TaskStatus.executing, rfl⟩ (by decide) (by decide) (by decide)).1⟩

theorem mutation_status_as_str_mem (st : MutationsDb.MutationStatus) :
    st.as_str ∈ MutationsDb.mutation_status_strings := by
  cases st <;> decide

theorem mutation_status_as_str_applied_iff (st : MutationsDb.MutationStatus) :
    st.as_str = "applied" ↔ st = MutationsDb.MutationStatus.applied := by
  cases st <;> decide

theorem mutation_invariant_step (m : MutationsDb.MutationRecord)
    (u : MutationsDb.UpdateMutationStatusInput) (now : ℤ)
    (hinv : MutationsDb.mutation_invariant m) (hm : m.status ≠ "applied") :
    MutationsDb.mutation_invariant (MutationsDb.apply_update_mutation m u now) := by
  obtain ⟨_, hiff⟩ := hinv
  constructor
  · exact mutation_status_as_str_mem u.status
  · show (if u.status = MutationsDb.MutationStatus.applied then some now else m.applied_at) ≠
      none ↔ u.status.as_str = "applied"
    by_cases hu : u.status = MutationsDb.MutationStatus.applied
    · rw [if_pos hu, hu]
      exact iff_of_true (by simp) rfl
    · rw [if_neg hu]
      have hnone : m.applied_at = none := by
        by_contra h
        exact hm (hiff.mp h)
      rw [hnone]
      exact iff_of_false (fun h => h rfl)
        (fun h => hu ((mutation_status_as_str_applied_iff u.status).mp h))

theorem run_updates_invariant (us : List (MutationsDb.UpdateMutationStatusInput × ℤ)) :
    ∀ m, MutationsDb.mutation_invariant m →
      MutationsDb.applied_terminal_trace m us = true →
      MutationsDb.mutation_invariant (MutationsDb.run_updates m us) := by
  induction us with
  | nil => intro m hinv _; exact hinv
  | cons u rest ih =>
    intro m hinv ht
    rw [MutationsDb.applied_terminal_trace, Bool.and_eq_true, decide_eq_true_iff] at ht
    exact ih _ (mutation_invariant_step m u.1 u.2 hinv ht.1) ht.2

/-- **C7** (amended).  Every mutation reachable through `create_mutation`
followed by `update_mutation_status` calls that respect the documented
terminality of `applied` (the update path is never invoked on a mutation
already in status `applied` — the discipline the pipeline enforces) carries
one of the five statuses, with `applied_at` set exactly when the status is
`applied`; and a single update sets `applied_at` exactly when it transitions
the record to `applied` (never clearing it otherwise). -/
theorem mutation_store_invariant (input : MutationsDb.CreateMutationInput) (id : String)
    (now : ℤ) (m0 : MutationsDb.MutationRecord)
    (us : List (MutationsDb.UpdateMutationStatusInput × ℤ))
    (hc : MutationsDb.create_mutation input id now = .ok m0)
    (ht : MutationsDb.applied_terminal_trace m0 us = true) :
    MutationsDb.mutation_invariant (MutationsDb.run_updates m0 us) ∧
    (∀ m u t, (MutationsDb.apply_update_mutation m u t).applied_at =
      if u.status = MutationsDb.MutationStatus.applied then some t else m.applied_at) := by
  constructor
  · have hfields : m0.status = "proposed" ∧ m0.applied_at = none := by
      unfold MutationsDb.create_mutation at hc
      cases hval : MutationsDb.validate_create_mutation_input input with
      | error e => rw [hval] at hc; exact absurd hc (by simp)
      | ok _ =>
        rw [hval] at hc
        simp only [Except.ok.injEq] at hc
        rw [← hc]
        exact ⟨rfl, rfl⟩
    refine run_updates_invariant us m0 ⟨?_, ?_⟩ ht
    · rw [hfields.1]; decide
    · rw [hfields.1, hfields.2]
      exact iff_of_false (fun h => h rfl) (by decide)
  · intro m u t
    rfl

/-- Witness for `mutation_store_invariant`: a concrete creation followed by a
`validated` then `applied` update (a trace on which `applied` stays
terminal). -/
theorem mutation_store_invariant_witness :
    MutationsDb.applied_terminal_trace fixture_cm0
      [(fixture_upd .validated, 3), (fixture_upd .applied, 5)] = true ∧
    MutationsDb.mutation_invariant (MutationsDb.run_updates fixture_cm0
      [(fixture_upd .validated, 3), (fixture_upd .applied, 5)]) :=
  ⟨by decide,
    (mutation_store_invariant fixture_cm_input "m1" 1 fixture_cm0
      [(fixture_upd .validated, 3), (fixture_upd .applied, 5)]
      (by
        rw [MutationsDb.create_mutation, MutationsDb.validate_create_mutation_input]
        rw [if_neg (by decide), if_neg (by decide), if_neg (by decide), if_neg (by decide),
          if_neg (not_not_intro (by norm_num [fixture_cm_input]))]
        simp only [Except.ok.injEq]
        decide)
      (by decide)).1⟩

/-- **C7** (counterexample).  The update path never clears `applied_at`, and
the store does not enforce that `applied` is terminal: updating an applied
mutation to `rejected` (reachable through `create_mutation` and two
`update_mutation_status` calls alone) leaves `applied_at` set while the status
is `rejected`, violating the claimed `applied_at ≠ NULL ↔ status = applied`
invariant. -/
theorem mutation_applied_at_counterexample :
    MutationsDb.create_mutation fixture_cm_input "m1" 1 = .ok fixture_cm0 ∧
    (MutationsDb.run_updates fixture_cm0
      [(fixture_upd .applied, 5), (fixture_upd .rejected, 7)]).status = "rejected" ∧
    (MutationsDb.run_updates fixture_cm0
      [(fixture_upd .applied, 5), (fixture_upd .rejected, 7)]).applied_at = some 5 ∧
    ¬ MutationsDb.mutation_invariant (MutationsDb.run_updates fixture_cm0
      [(fixture_upd .applied, 5), (fixture_upd .rejected, 7)]) := by
  refine ⟨?_, by decide, by decide, ?_⟩
  · rw [MutationsDb.create_mutation, MutationsDb.validate_create_mutation_input]
    rw [if_neg (by decide), if_neg (by decide), if_neg (by decide), if_neg (by decide),
      if_neg (not_not_intro (by norm_num [fixture_cm_input]))]
    simp only [Except.ok.injEq]
    decide
  · intro hinv
    have := hinv.2.mp (by decide)
    exact absurd this (by decide)

theorem remote_core_no_modified (computeDiff : String → String → String → String)
    (countChanged : String → String → ℕ) (task : Specialist.SpecialistTask)
    (fp original : String) (parsed : Option Specialist.SpecialistModelOutput)
    (response : Specialist.AdapterResponse)
    (hmod : Specialist.modified_content_of parsed = none) :
    Specialist.remote_generation_core computeDiff countChanged task fp (some original)
      parsed response =
    .error ("LLM returned no modifiedContent for " ++ fp ++ ": " ++
      ((parsed.bind (fun p => p.intent_description)).getD "no reason provided") ++
      ". Raw response (first 300 chars): " ++ String.mk (response.text.data.take 300)) := by
  simp only [Specialist.remote_generation_core, hmod]

theorem remote_core_unchanged (computeDiff : String → String → String → String)
    (countChanged : String → String → ℕ) (task : Specialist.SpecialistTask)
    (fp original m : String) (parsed : Option Specialist.SpecialistModelOutput)
    (response : Specialist.AdapterResponse)
    (hmod : Specialist.modified_content_of parsed = some m)
    (heq : trimStr original = trimStr m) :
    Specialist.remote_generation_core computeDiff countChanged task fp (some original)
      parsed response =
    .error ("LLM returned unchanged content for " ++ fp ++
      " — no modifications produced") := by
  simp only [Specialist.remote_generation_core, hmod]
  rw [if_neg (by simp [heq])]

theorem remote_core_ok_diff_nonempty (computeDiff : String → String → String → String)
    (countChanged : String → String → ℕ) (task : Specialist.SpecialistTask)
    (fp original : String) (parsed : Option Specialist.SpecialistModelOutput)
    (response : Specialist.AdapterResponse) (r : Specialist.RemoteGenerationResult)
    (h : Specialist.remote_generation_core computeDiff countChanged task fp (some original)
      parsed response = .ok r) :
    trimStr r.diff_content ≠ "" := by
  cases hm : Specialist.modified_content_of parsed with
  | none =>
    rw [remote_core_no_modified computeDiff countChanged task fp original parsed response hm]
      at h
    exact absurd h (by simp)
  | some m =>
    by_cases heq : trimStr original = trimStr m
    · rw [remote_core_unchanged computeDiff countChanged task fp original m parsed response
        hm heq] at h
      exact absurd h (by simp)
    · simp only [Specialist.remote_generation_core, hm] at h
      rw [if_pos heq] at h
      by_cases hd : trimStr (computeDiff fp (replaceCrLf original) (replaceCrLf m)) = ""
      · rw [if_pos hd] at h
        exact absurd h (by simp)
      · rw [if_neg hd] at h
        simp only [Except.ok.injEq] at h
        rw [← h]
        exact hd

/-- **C5**.  Whenever the LLM adapter is actually invoked (adapter enabled, a
provider/model pair configured) and returns a response, each of the three
conditions — no `modifiedContent` in the parsed payload, content identical
(after trimming) to the original file, and an empty computed diff — makes
`run_specialist_task` return an error; and every successful proposal produced
from an existing file carries a non-blank diff, so the specialist never
silently downgrades to a no-op proposal. -/
theorem specialist_hard_errors (env : Specialist.SpecialistEnv)
    (task : Specialist.SpecialistTask) (content : Option String) (prov mid : String)
    (response : Specialist.AdapterResponse)
    (henabled : env.enabled = true)
    (hprov : task.model_provider = some prov) (hmid : task.model_id = some mid)
    (hresp : env.adapterResult = .ok response) :
    (∀ original, content = some original →
      Specialist.modified_content_of (env.parsedOf response.text) = none →
      ∃ e, Specialist.run_specialist_task env task content = .error e) ∧
    (∀ original m, content = some original →
      Specialist.modified_content_of (env.parsedOf response.text) = some m →
      trimStr original = trimStr m →
      ∃ e, Specialist.run_specialist_task env task content = .error e) ∧
    (∀ p original, content = some original →
      Specialist.run_specialist_task env task content = .ok p →
      trimStr p.diff_content ≠ "") := by
  have htr : ∀ fp, Specialist.try_remote_model_generation env task fp content =
      (Specialist.remote_generation_core env.computeDiff env.countChanged task fp content
        (env.parsedOf response.text) response).map some := by
    intro fp
    simp only [Specialist.try_remote_model_generation, henabled, hprov, hmid, hresp,
      not_true, if_false]
  have run_error_of_try_error : ∀ (content : Option String) (u : Unit) (e : String),
      Specialist.validate_specialist_task task = .ok u →
      Specialist.try_remote_model_generation env task
        (Specialist.resolve_target_file task) content = .error e →
      Specialist.run_specialist_task env task content = .error e := by
    intro content u e hval h
    simp only [Specialist.run_specialist_task, hval, h]
  refine ⟨?_, ?_, ?_⟩
  · intro original hc hmod
    subst hc
    cases hval : Specialist.validate_specialist_task task with
    | error e => exact ⟨e, by simp [Specialist.run_specialist_task, hval]⟩
    | ok u =>
      have htre := htr (Specialist.resolve_target_file task)
      rw [remote_core_no_modified env.computeDiff env.countChanged task
        (Specialist.resolve_target_file task) original (env.parsedOf response.text)
        response hmod] at htre
      exact ⟨_, run_error_of_try_error (some original) u _ hval htre⟩
  · intro original m hc hmod heq
    subst hc
    cases hval : Specialist.validate_specialist_task task with
    | error e => exact ⟨e, by simp [Specialist.run_specialist_task, hval]⟩
    | ok u =>
      have htre := htr (Specialist.resolve_target_file task)
      rw [remote_core_unchanged env.computeDiff env.countChanged task
        (Specialist.resolve_target_file task) original m (env.parsedOf response.text)
        response hmod heq] at htre
      exact ⟨_, run_error_of_try_error (some original) u _ hval htre⟩
  · intro p original hc hok
    subst hc
    cases hval : Specialist.validate_specialist_task task with
    | error e => simp [Specialist.run_specialist_task, hval] at hok
    | ok _ =>
      simp only [Specialist.run_specialist_task, hval, htr] at hok
      cases hcore : Specialist.remote_generation_core env.computeDiff env.countChanged task
          (Specialist.resolve_target_file task) (some original)
          (env.parsedOf response.text) response with
      | error e => rw [hcore] at hok; simp [Except.map] at hok
      | ok r =>
        rw [hcore] at hok
        simp only [Except.map, Except.ok.injEq] at hok
        have hdp : p.diff_content = r.diff_content := by
          rw [← hok]
        rw [hdp]
        exact remote_core_ok_diff_nonempty env.computeDiff env.countChanged task
          (Specialist.resolve_target_file task) original (env.parsedOf response.text)
          response r hcore

/-- Witness for `specialist_hard_errors`: a concrete run whose adapter
returned no `modifiedContent` yields a hard error. -/
theorem specialist_hard_errors_witness :
    fixture_env5.enabled = true ∧
    (∃ e, Specialist.run_specialist_task fixture_env5 fixture_task5 (some "orig") = .error e) :=
  ⟨by decide,
    (specialist_hard_errors fixture_env5 fixture_task5 (some "orig") "openai" "gpt-test"
      { text := "raw", input_tokens := none, output_tokens := some 5 }
      (by decide) (by decide) (by decide) rfl).1 "orig" rfl (by decide)⟩

/-- **C1**.  Running the pipeline on a mutation whose status is `applied`
(resp. `rejected`) fails with the corresponding "already applied" ("already
rejected") error, and the store — the mutation record, its task record, and
even the audit log — is returned unchanged: the guard fires before any state
write. -/
theorem run_mutation_pipeline_already_terminal (env : Pipeline.PipelineEnv)
    (s : Pipeline.Store) (input : Pipeline.RunMutationPipelineInput)
    (m : MutationsDb.MutationRecord) (t : TasksDb.TaskRecord)
    (h1 : trimStr input.mutation_id ≠ "")
    (h2 : trimStr input.target_project ≠ "")
    (hm : Pipeline.get_mutation_by_id s (trimStr input.mutation_id) = .ok m)
    (ht : Pipeline.get_task_by_id s (trimStr m.task_id) = .ok t)
    (hs : m.status = "applied" ∨ m.status = "rejected") :
    (Pipeline.run_mutation_pipeline env s input).1 = s ∧
    ((m.status = "applied" ∧ (Pipeline.run_mutation_pipeline env s input).2 =
        .error ("Mutation '" ++ m.id ++ "' is already applied.")) ∨
      (m.status = "rejected" ∧ (Pipeline.run_mutation_pipeline env s input).2 =
        .error ("Mutation '" ++ m.id ++ "' is already rejected."))) := by
  rcases hs with hs | hs
  · have hrun : Pipeline.run_mutation_pipeline env s input =
        (s, .error ("Mutation '" ++ m.id ++ "' is already applied.")) := by
      simp only [Pipeline.run_mutation_pipeline, if_neg h1, if_neg h2, hm, ht, hs]
      simp
    exact ⟨by rw [hrun], Or.inl ⟨hs, by rw [hrun]⟩⟩
  · have hne : m.status ≠ "applied" := by rw [hs]; decide
    have hrun : Pipeline.run_mutation_pipeline env s input =
        (s, .error ("Mutation '" ++ m.id ++ "' is already rejected.")) := by
      simp only [Pipeline.run_mutation_pipeline, if_neg h1, if_neg h2, hm, ht,
        if_neg hne, hs]
      simp
    exact ⟨by rw [hrun], Or.inr ⟨hs, by rw [hrun]⟩⟩

/-- Witness for `run_mutation_pipeline_already_terminal` on a concrete store
holding an applied mutation. -/
theorem run_mutation_pipeline_already_terminal_witness :
    fixture_mut_applied.status = "applied" ∧
    (Pipeline.run_mutation_pipeline fixture_env1 fixture_store1 fixture_input1).1 =
      fixture_store1 :=
  ⟨by decide,
    (run_mutation_pipeline_already_terminal fixture_env1 fixture_store1 fixture_input1
      fixture_mut_applied fixture_task_exec (by decide) (by decide) (by decide) (by decide)
      (Or.inl (by decide))).1⟩

/-- **C10**.  The pipeline's path handling refuses unsafe mutation file paths:
`resolve_target_file` errors on an empty path, on any path containing `..`,
and on an existing path whose canonical form leaves the canonical project
root; `checksum_for_target_file` propagates every such refusal; and the apply
phase of the pipeline (which computes `checksum_before` with `?` before
touching git) returns that refusal as an error, so the apply step never runs
on such a path. -/
theorem pipeline_path_guards (fs : Pipeline.FileSys) (root : List String) (rel : String) :
    (trimStr rel = "" →
      Pipeline.resolve_target_file fs root rel = .error "mutation file path is empty") ∧
    (trimStr rel ≠ "" → containsSubstr rel ".." = true →
      Pipeline.resolve_target_file fs root rel =
        .error "mutation file path cannot contain '..'") ∧
    (∀ canon canonRoot, trimStr rel ≠ "" → containsSubstr rel ".." = false →
      fs.exists_at (root ++ (splitSlash rel).filter (fun part => part ≠ "")) = true →
      fs.canonicalize (root ++ (splitSlash rel).filter (fun part => part ≠ "")) = .ok canon →
      fs.canonicalize root = .ok canonRoot →
      canonRoot.isPrefixOf canon = false →
      Pipeline.resolve_target_file fs root rel =
        .error "mutation file path escapes target project root") ∧
    (∀ e, Pipeline.resolve_target_file fs root rel = .error e →
      Pipeline.checksum_for_target_file fs (.ok root) rel = .error e) ∧
    (∀ (env : Pipeline.PipelineEnv) (s : Pipeline.Store)
        (m : MutationsDb.MutationRecord) (t : TasksDb.TaskRecord)
        (shadow : Pipeline.ShadowOutcome) (steps : List Pipeline.PipelineStepResult) (e : String),
      env.normalize_root = .ok root →
      Pipeline.resolve_target_file env.fs_before root m.file_path = .error e →
      Pipeline.pipeline_apply_phase env s m t shadow steps = (s, .error e)) := by
  refine ⟨?_, ?_, ?_, ?_, ?_⟩
  · intro h
    simp only [Pipeline.resolve_target_file, if_pos h]
  · intro h1 h2
    simp only [Pipeline.resolve_target_file, if_neg h1, h2]
    simp
  · intro canon canonRoot h1 h2 hex hcanon hcroot hpre
    simp only [Pipeline.resolve_target_file, if_neg h1, h2]
    simp only [Bool.false_eq_true, if_false, hex, if_pos, hcanon, hcroot, hpre]
  · intro e h
    simp only [Pipeline.checksum_for_target_file, h]
  · intro env s m t shadow steps e hroot hres
    simp only [Pipeline.pipeline_apply_phase, Pipeline.checksum_for_target_file, hroot, hres]

/-- Witness for `pipeline_path_guards`: the path `../x` is refused. -/
theorem pipeline_path_guards_witness :
    containsSubstr "../x" ".." = true ∧
    Pipeline.resolve_target_file fixture_fs ["root"] "../x" =
      .error "mutation file path cannot contain '..'" :=
  ⟨by decide,
    (pipeline_path_guards fixture_fs ["root"] "../x").2.1 (by decide) (by decide)⟩

theorem zip_self_dot (l : List ℝ) :
    ((l.zip l).map (fun p => p.1 * p.2)).sum = (l.map (fun v => v * v)).sum := by
  induction l with
  | nil => simp
  | cons x xs ih => simp [ih]

theorem dot_comm (a : List ℝ) : ∀ b : List ℝ,
    ((a.zip b).map (fun p => p.1 * p.2)).sum = ((b.zip a).map (fun p => p.1 * p.2)).sum := by
  induction a with
  | nil => intro b; cases b <;> simp
  | cons x xs ih =>
    intro b
    cases b with
    | nil => simp
    | cons y ys => simp [ih ys, mul_comm]

theorem sum_sq_nonneg (l : List ℝ) : 0 ≤ (l.map (fun v => v * v)).sum := by
  induction l with
  | nil => simp
  | cons x xs ih => simpa using add_nonneg (mul_self_nonneg x) ih

theorem sum_sq_eq_zero_iff (l : List ℝ) :
    (l.map (fun v => v * v)).sum = 0 ↔ ∀ x ∈ l, x = 0 := by
  induction l with
  | nil => simp
  | cons x xs ih =>
    simp only [List.map_cons, List.sum_cons, List.mem_cons]
    constructor
    · intro h
      have h1 : 0 ≤ x * x := mul_self_nonneg x
      have h2 : 0 ≤ (xs.map (fun v => v * v)).sum := sum_sq_nonneg xs
      have hx : x * x = 0 := by linarith
      have hxs : (xs.map (fun v => v * v)).sum = 0 := by linarith
      intro y hy
      rcases hy with he | hm
      · rw [he]; exact mul_self_eq_zero.mp hx
      · exact (ih.mp hxs) y hm
    · intro h
      have hx : x = 0 := h x (Or.inl rfl)
      rw [hx, ih.mpr (fun y hy => h y (Or.inr hy))]
      simp

theorem sum_map_div (l : List ℝ) (k : ℝ) : (l.map (fun x => x / k)).sum = l.sum / k := by
  induction l with
  | nil => simp
  | cons x xs ih => simp [ih, add_div]

theorem cosine_similarity_comm (a b : List ℝ) :
    Specialist.cosine_similarity a b = Specialist.cosine_similarity b a := by
  unfold Specialist.cosine_similarity
  by_cases h1 : a.isEmpty = true ∨ b.isEmpty = true ∨ a.length ≠ b.length
  · have h1s : b.isEmpty = true ∨ a.isEmpty = true ∨ b.length ≠ a.length := by
      rcases h1 with h | h | h
      · exact Or.inr (Or.inl h)
      · exact Or.inl h
      · exact Or.inr (Or.inr (Ne.symm h))
    rw [if_pos h1, if_pos h1s]
  · have h1s : ¬ (b.isEmpty = true ∨ a.isEmpty = true ∨ b.length ≠ a.length) := by
      intro hc
      rcases hc with h | h | h
      · exact h1 (Or.inr (Or.inl h))
      · exact h1 (Or.inl h)
      · exact h1 (Or.inr (Or.inr (Ne.symm h)))
    rw [if_neg h1, if_neg h1s]
    by_cases h2 : Real.sqrt ((a.map (fun v => v * v)).sum) = 0 ∨
        Real.sqrt ((b.map (fun v => v * v)).sum) = 0
    · rw [if_pos h2, if_pos (Or.symm h2)]
    · rw [if_neg h2, if_neg (fun hc => h2 (Or.symm hc))]
      rw [dot_comm a b, mul_comm]

theorem embed_accum_length (v : List ℤ) (tok : String) :
    (Indexer.embedAccum v tok).length = v.length := by
  unfold Indexer.embedAccum
  simp [List.length_set]

theorem embed_foldl_length (toks : List String) : ∀ v : List ℤ,
    (toks.foldl Indexer.embedAccum v).length = v.length := by
  induction toks with
  | nil => intro v; rfl
  | cons tok rest ih =>
    intro v
    simp only [List.foldl_cons]
    rw [ih (Indexer.embedAccum v tok), embed_accum_length]

theorem embed_raw_length (t : String) :
    (Indexer.embed_raw t).length = Indexer.VECTOR_DIM := by
  unfold Indexer.embed_raw
  rw [embed_foldl_length, List.length_replicate]

theorem getD_set_self_int (l : List ℤ) (i : ℕ) (a d : ℤ) (h : i < l.length) :
    (l.set i a).getD i d = a := by
  rw [List.getD_eq_getElem _ _ (by simpa using h)]
  exact List.getElem_set_self _

theorem getD_replicate_int (n i : ℕ) (a d : ℤ) (h : i < n) :
    (List.replicate n a).getD i d = a := by
  rw [List.getD_eq_getElem _ _ (by simpa using h)]
  exact List.getElem_replicate _ _

theorem embed_raw_single_token_ne_zero (s tok : String)
    (h : Indexer.embedTokens s = [tok]) :
    Indexer.embed_raw s ≠ List.replicate Indexer.VECTOR_DIM 0 := by
  unfold Indexer.embed_raw
  rw [h]
  simp only [List.foldl_cons, List.foldl_nil]
  unfold Indexer.embedAccum
  intro hc
  have hdim : 0 < Indexer.VECTOR_DIM := by norm_num [Indexer.VECTOR_DIM]
  have hidx : ((Sha256.sha256 (Indexer.strBytes (toLowerStr tok))).getD 0 0 +
      256 * (Sha256.sha256 (Indexer.strBytes (toLowerStr tok))).getD 1 0) %
      Indexer.VECTOR_DIM < Indexer.VECTOR_DIM := Nat.mod_lt _ hdim
  have hget := congrArg (fun l : List ℤ => l.getD
    (((Sha256.sha256 (Indexer.strBytes (toLowerStr tok))).getD 0 0 +
      256 * (Sha256.sha256 (Indexer.strBytes (toLowerStr tok))).getD 1 0) %
      Indexer.VECTOR_DIM) 0) hc
  simp only at hget
  rw [getD_replicate_int _ _ _ _ hidx] at hget
  rw [getD_set_self_int _ _ _ _ (by rw [List.length_replicate]; exact hidx)] at hget
  rcases ite_eq_or_eq ((Sha256.sha256 (Indexer.strBytes (toLowerStr tok))).getD 2 0 % 2 = 0)
    (1 : ℤ) (-1) with hs | hs <;> rw [hs] at hget <;> omega

theorem sum_sq_raw_pos (t : String)
    (h : Indexer.embed_raw t ≠ List.replicate Indexer.VECTOR_DIM 0) :
    0 < ((((Indexer.embed_raw t).map (fun z : ℤ => (z : ℝ))).map (fun v => v * v)).sum) := by
  rcases lt_or_eq_of_le (sum_sq_nonneg ((Indexer.embed_raw t).map (fun z : ℤ => (z : ℝ))))
    with hlt | heq
  · exact hlt
  · exfalso
    have hall := (sum_sq_eq_zero_iff _).mp heq.symm
    apply h
    rw [List.eq_replicate_iff]
    refine ⟨embed_raw_length t, ?_⟩
    intro z hz
    have hmem : ((z : ℝ)) ∈ (Indexer.embed_raw t).map (fun z : ℤ => (z : ℝ)) :=
      List.mem_map_of_mem (fun z : ℤ => (z : ℝ)) hz
    have hz0 : ((z : ℝ)) = 0 := hall _ hmem
    exact_mod_cast hz0

theorem embed_text_of_ne_zero (t : String)
    (h : Indexer.embed_raw t ≠ List.replicate Indexer.VECTOR_DIM 0) :
    Indexer.embed_text t = ((Indexer.embed_raw t).map (fun z : ℤ => (z : ℝ))).map
      (fun v => v / Real.sqrt ((((Indexer.embed_raw t).map (fun z : ℤ => (z : ℝ))).map
        (fun v => v * v)).sum)) := by
  unfold Indexer.embed_text
  rw [if_pos (Real.sqrt_pos.mpr (sum_sq_raw_pos t h))]

theorem cosine_normalized_self (l : List ℝ) (hne : l ≠ [])
    (hS : 0 < (l.map (fun v => v * v)).sum) :
    Specialist.cosine_similarity
      (l.map (fun v => v / Real.sqrt ((l.map (fun v => v * v)).sum)))
      (l.map (fun v => v / Real.sqrt ((l.map (fun v => v * v)).sum))) = 1 := by
  set S := (l.map (fun v => v * v)).sum with hSdef
  set c := Real.sqrt S with hcdef
  set e := l.map (fun v => v / c) with hedef
  have hsum_e : (e.map (fun v => v * v)).sum = 1 := by
    rw [hedef, List.map_map]
    rw [show ((fun v => v * v) ∘ fun v => v / c) = fun x => (x * x) / (c * c) from by
      funext x; simp [Function.comp, div_mul_div_comm]]
    rw [show (fun x => x * x / (c * c)) = ((fun y => y / (c * c)) ∘ fun x => x * x) from rfl]
    rw [← List.map_map, sum_map_div, ← hSdef]
    rw [hcdef, Real.mul_self_sqrt hS.le]
    exact div_self (ne_of_gt hS)
  have he_ne : e ≠ [] := by
    rw [hedef]
    exact fun hc0 => hne (List.map_eq_nil_iff.mp hc0)
  unfold Specialist.cosine_similarity
  have hcond : ¬ (e.isEmpty = true ∨ e.isEmpty = true ∨ e.length ≠ e.length) := by
    simp [List.isEmpty_iff, he_ne]
  rw [if_neg hcond]
  have hnorm : Real.sqrt ((e.map (fun v => v * v)).sum) = 1 := by
    rw [hsum_e, Real.sqrt_one]
  rw [if_neg (by rw [hnorm]; norm_num)]
  rw [zip_self_dot, hsum_e, Real.sqrt_one]
  norm_num

theorem cosine_embed_self (t : String)
    (h : Indexer.embed_raw t ≠ List.replicate Indexer.VECTOR_DIM 0) :
    Specialist.cosine_similarity (Indexer.embed_text t) (Indexer.embed_text t) = 1 := by
  rw [embed_text_of_ne_zero t h]
  refine cosine_normalized_self ((Indexer.embed_raw t).map (fun z : ℤ => (z : ℝ))) ?_ ?_
  · intro hc
    have hnil := List.map_eq_nil_iff.mp hc
    have hl := embed_raw_length t
    rw [hnil] at hl
    norm_num [Indexer.VECTOR_DIM] at hl
  · exact sum_sq_raw_pos t h

/-- **C6** (amended): `semantic_distance` is `1 − cosine(embed a, embed b)` clamped to
`[0, 1]`, it is symmetric and always lies in `[0, 1]`; but `semantic_distance a a = 0`
only holds when the raw embedding of `a`'s intent description is non-zero (the
normalisation in `embed_text` is skipped for zero vectors, and the cosine of zero
vectors is `0`, giving self-distance `1`). -/
theorem semantic_distance_properties (a b : Specialist.DiffProposal) :
    Specialist.semantic_distance a b =
      min (max (1 - Specialist.cosine_similarity (Indexer.embed_text a.intent_description)
        (Indexer.embed_text b.intent_description)) 0) 1 ∧
    Specialist.semantic_distance a b = Specialist.semantic_distance b a ∧
    0 ≤ Specialist.semantic_distance a b ∧
    Specialist.semantic_distance a b ≤ 1 ∧
    (Indexer.embed_raw a.intent_description ≠ List.replicate Indexer.VECTOR_DIM 0 →
      Specialist.semantic_distance a a = 0) := by
  refine ⟨rfl, ?_, ?_, ?_, ?_⟩
  · unfold Specialist.semantic_distance
    rw [cosine_similarity_comm]
  · exact le_min (le_max_right _ _) zero_le_one
  · exact min_le_right _ _
  · intro h
    unfold Specialist.semantic_distance
    rw [cosine_embed_self a.intent_description h]
    norm_num

/-- Witness for **C6**: the single-token intent `"foo"` has a non-zero raw embedding,
and its self-distance is `0`. -/
theorem semantic_distance_properties_witness :
    Indexer.embed_raw fixture_p_foo.intent_description ≠
      List.replicate Indexer.VECTOR_DIM 0 ∧
    Specialist.semantic_distance fixture_p_foo fixture_p_foo = 0 :=
  ⟨embed_raw_single_token_ne_zero "foo" "foo" (by decide),
   (semantic_distance_properties fixture_p_foo fixture_p_foo).2.2.2.2
     (embed_raw_single_token_ne_zero "foo" "foo" (by decide))⟩

set_option maxRecDepth 8192 in
/-- Counterexample for **C6** as stated: the spec claims `semantic_distance(a, a) = 0`
for every proposal, but a proposal with an empty intent description embeds to the zero
vector, whose self-cosine is `0`, so its self-distance is `1`, not `0`. -/
theorem semantic_distance_self_counterexample :
    Specialist.semantic_distance fixture_p_empty fixture_p_empty = 1 ∧ (1 : ℝ) ≠ 0 := by
  constructor
  · have h0 : Indexer.embed_raw "" = List.replicate Indexer.VECTOR_DIM 0 := by decide
    have hmap : (Indexer.embed_raw "").map (fun z : ℤ => (z : ℝ)) =
        List.replicate Indexer.VECTOR_DIM (0 : ℝ) := by
      rw [h0, List.map_replicate]
      norm_num
    have hsq : ((List.replicate Indexer.VECTOR_DIM (0 : ℝ)).map (fun v => v * v)).sum = 0 := by
      rw [List.map_replicate]
      simp
    have hembed : Indexer.embed_text "" = List.replicate Indexer.VECTOR_DIM (0 : ℝ) := by
      unfold Indexer.embed_text
      rw [hmap]
      rw [if_neg (by rw [hsq, Real.sqrt_zero]; norm_num)]
    have hcos : Specialist.cosine_similarity (List.replicate Indexer.VECTOR_DIM (0 : ℝ))
        (List.replicate Indexer.VECTOR_DIM (0 : ℝ)) = 0 := by
      unfold Specialist.cosine_similarity
      rw [if_neg (by simp [List.isEmpty_iff, Indexer.VECTOR_DIM])]
      rw [if_pos (Or.inl (by rw [hsq, Real.sqrt_zero]))]
    show min (max (1 - Specialist.cosine_similarity (Indexer.embed_text "")
      (Indexer.embed_text "")) 0) 1 = 1
    rw [hembed, hcos]
    norm_num
  · norm_num

theorem strongestStep_some_eq (l : List Specialist.DiffProposal) (a b : ℕ) (cur : ℝ)
    (p : ℕ × ℕ) :
    DomainLeader.strongestStep l (some (a, b, cur)) p =
      if Specialist.semantic_distance (l.getD p.1 default) (l.getD p.2 default) > cur then
        some (p.1, p.2, Specialist.semantic_distance (l.getD p.1 default)
          (l.getD p.2 default))
      else some (a, b, cur) := rfl

theorem strongest_step_some (l : List Specialist.DiffProposal) (x : ℕ × ℕ × ℝ)
    (p : ℕ × ℕ) : ∃ y, DomainLeader.strongestStep l (some x) p = some y := by
  obtain ⟨a, b, cur⟩ := x
  rw [strongestStep_some_eq]
  by_cases h : Specialist.semantic_distance (l.getD p.1 default) (l.getD p.2 default) > cur
  · exact ⟨_, by rw [if_pos h]⟩
  · exact ⟨_, by rw [if_neg h]⟩

theorem strongest_foldl_of_some (l : List Specialist.DiffProposal)
    (L : List (ℕ × ℕ)) : ∀ x : ℕ × ℕ × ℝ,
    ∃ y, L.foldl (DomainLeader.strongestStep l) (some x) = some y := by
  induction L with
  | nil => intro x; exact ⟨x, rfl⟩
  | cons p L ih =>
    intro x
    obtain ⟨x1, hx1⟩ := strongest_step_some l x p
    rw [List.foldl_cons, hx1]
    exact ih x1

theorem strongest_foldl_of_ne_nil (l : List Specialist.DiffProposal)
    (L : List (ℕ × ℕ)) (h : L ≠ []) :
    ∃ y, L.foldl (DomainLeader.strongestStep l) none = some y := by
  cases L with
  | nil => exact absurd rfl h
  | cons p L =>
    rw [List.foldl_cons]
    have hstep : DomainLeader.strongestStep l none p =
        some (p.1, p.2, Specialist.semantic_distance (l.getD p.1 default)
          (l.getD p.2 default)) := rfl
    rw [hstep]
    exact strongest_foldl_of_some l L _

theorem strongest_foldl_spec (l : List Specialist.DiffProposal)
    (L : List (ℕ × ℕ)) : ∀ (st : Option (ℕ × ℕ × ℝ)) (r : ℕ × ℕ × ℝ),
    L.foldl (DomainLeader.strongestStep l) st = some r →
    ((st = some r ∨ r.2.2 ∈ L.map (fun p =>
        Specialist.semantic_distance (l.getD p.1 default) (l.getD p.2 default))) ∧
     (∀ e ∈ L.map (fun p =>
        Specialist.semantic_distance (l.getD p.1 default) (l.getD p.2 default)),
        e ≤ r.2.2) ∧
     (∀ x : ℕ × ℕ × ℝ, st = some x → x.2.2 ≤ r.2.2)) := by
  induction L with
  | nil =>
    intro st r h
    simp only [List.foldl_nil] at h
    refine ⟨Or.inl h, by simp, ?_⟩
    intro x hx
    rw [h] at hx
    injection hx with hx
    rw [hx]
  | cons p L ih =>
    intro st r h
    rw [List.foldl_cons] at h
    obtain ⟨h1, h2, h3⟩ := ih (DomainLeader.strongestStep l st p) r h
    have hstep_ge : ∀ y : ℕ × ℕ × ℝ, DomainLeader.strongestStep l st p = some y →
        Specialist.semantic_distance (l.getD p.1 default) (l.getD p.2 default) ≤ y.2.2 := by
      intro y hy
      cases st with
      | none =>
        have : y = (p.1, p.2, Specialist.semantic_distance (l.getD p.1 default)
            (l.getD p.2 default)) := by
          have hred : DomainLeader.strongestStep l none p =
              some (p.1, p.2, Specialist.semantic_distance (l.getD p.1 default)
                (l.getD p.2 default)) := rfl
          rw [hred] at hy
          injection hy with hy
          exact hy.symm
        rw [this]
      | some x =>
        obtain ⟨a, b, cur⟩ := x
        rw [strongestStep_some_eq] at hy
        by_cases hlt : Specialist.semantic_distance (l.getD p.1 default)
            (l.getD p.2 default) > cur
        · rw [if_pos hlt] at hy
          injection hy with hy
          rw [← hy]
        · rw [if_neg hlt] at hy
          injection hy with hy
          rw [← hy]
          exact le_of_not_lt hlt
    have hstep_mono : ∀ x : ℕ × ℕ × ℝ, st = some x →
        ∀ y : ℕ × ℕ × ℝ, DomainLeader.strongestStep l st p = some y → x.2.2 ≤ y.2.2 := by
      intro x hst y hy
      obtain ⟨a, b, cur⟩ := x
      rw [hst] at hy
      rw [strongestStep_some_eq] at hy
      by_cases hlt : Specialist.semantic_distance (l.getD p.1 default)
          (l.getD p.2 default) > cur
      · rw [if_pos hlt] at hy
        injection hy with hy
        rw [← hy]
        exact le_of_lt hlt
      · rw [if_neg hlt] at hy
        injection hy with hy
        rw [← hy]
    have hstep_cases : DomainLeader.strongestStep l st p = st ∨
        DomainLeader.strongestStep l st p =
          some (p.1, p.2, Specialist.semantic_distance (l.getD p.1 default)
            (l.getD p.2 default)) := by
      cases st with
      | none => exact Or.inr rfl
      | some x =>
        obtain ⟨a, b, cur⟩ := x
        rw [strongestStep_some_eq]
        by_cases hlt : Specialist.semantic_distance (l.getD p.1 default)
            (l.getD p.2 default) > cur
        · rw [if_pos hlt]
          exact Or.inr rfl
        · rw [if_neg hlt]
          exact Or.inl rfl
    refine ⟨?_, ?_, ?_⟩
    · rcases h1 with h1 | h1
      · rcases hstep_cases with hc | hc
        · rw [hc] at h1
          exact Or.inl h1
        · rw [hc] at h1
          injection h1 with h1
          right
          rw [List.map_cons, List.mem_cons]
          left
          rw [← h1]
      · right
        rw [List.map_cons, List.mem_cons]
        exact Or.inr h1
    · intro e he
      rw [List.map_cons, List.mem_cons] at he
      rcases he with he | he
      · rcases h1 with h1 | h1
        · rw [he]
          exact hstep_ge r h1
        · rcases hstep_cases with hc | hc
          · cases st with
            | none =>
              have hred : DomainLeader.strongestStep l none p =
                  some (p.1, p.2, Specialist.semantic_distance (l.getD p.1 default)
                    (l.getD p.2 default)) := rfl
              rw [hred] at hc
              exact absurd hc (by simp)
            | some x =>
              rw [he]
              calc Specialist.semantic_distance (l.getD p.1 default) (l.getD p.2 default)
                  ≤ x.2.2 := hstep_ge x hc
                _ ≤ r.2.2 := h3 x hc
          · rw [he]
            have := h3 _ hc
            simpa using this
      · exact h2 e (by rw [List.mem_map] at he ⊢; exact he)
    · intro x hx
      rcases hstep_cases with hc | hc
      · exact h3 x (by rw [hc, hx])
      · calc x.2.2 ≤ (p.1, p.2, Specialist.semantic_distance (l.getD p.1 default)
            (l.getD p.2 default)).2.2 := hstep_mono x hx _ hc
          _ ≤ r.2.2 := h3 _ hc

theorem indexPairs_ne_nil (n : ℕ) (h : 2 ≤ n) : DomainLeader.indexPairs n ≠ [] := by
  intro hc
  unfold DomainLeader.indexPairs at hc
  have h0 : (0 : ℕ) ∈ List.range n := List.mem_range.mpr (by omega)
  have hdrop := List.flatMap_eq_nil_iff.mp hc 0 h0
  have hnil : (List.range n).drop 1 = [] := by
    have := List.map_eq_nil_iff.mp hdrop
    simpa using this
  have := List.drop_eq_nil_iff.mp hnil
  rw [List.length_range] at this
  omega

theorem detect_conflict_eq (l : List Specialist.DiffProposal) (r : ℕ × ℕ × ℝ)
    (h2 : ¬ l.length < 2)
    (hfold : (DomainLeader.indexPairs l.length).foldl
      (DomainLeader.strongestStep l) none = some r) :
    DomainLeader.detect_conflict l =
      if r.2.2 ≤ 3/10 then none
      else some
        { agent_a := (l.getD r.1 default).agent_uid
          agent_b := (l.getD r.2.1 default).agent_uid
          semantic_distance := r.2.2
          requires_human_review := true } := by
  obtain ⟨a, b, d⟩ := r
  unfold DomainLeader.detect_conflict
  rw [if_neg h2, hfold]

/-- **C8**: with fewer than two proposals `detect_conflict` is silent; with at least
two, it returns `none` exactly when every pairwise semantic distance is at most
`3/10`, and any returned report has `requires_human_review = true` and carries the
maximum pairwise distance, which exceeds `3/10`. -/
theorem detect_conflict_spec (l : List Specialist.DiffProposal) :
    (l.length < 2 → DomainLeader.detect_conflict l = none) ∧
    (2 ≤ l.length →
      ((DomainLeader.detect_conflict l = none ↔
          ∀ d ∈ DomainLeader.pair_distances l, d ≤ 3/10) ∧
        ∀ r : DomainLeader.ConflictReport, DomainLeader.detect_conflict l = some r →
          r.requires_human_review = true ∧
          r.semantic_distance ∈ DomainLeader.pair_distances l ∧
          (∀ d ∈ DomainLeader.pair_distances l, d ≤ r.semantic_distance) ∧
          3/10 < r.semantic_distance)) := by
  constructor
  · intro h
    unfold DomainLeader.detect_conflict
    rw [if_pos h]
  · intro h2
    obtain ⟨r0, hfold⟩ := strongest_foldl_of_ne_nil l _ (indexPairs_ne_nil l.length h2)
    obtain ⟨hor, hmax, -⟩ := strongest_foldl_spec l _ none r0 hfold
    have hmem : r0.2.2 ∈ DomainLeader.pair_distances l := by
      rcases hor with h | h
      · exact absurd h (by simp)
      · exact h
    have heq := detect_conflict_eq l r0 (not_lt.mpr h2) hfold
    constructor
    · rw [heq]
      by_cases hd : r0.2.2 ≤ 3/10
      · rw [if_pos hd]
        constructor
        · intro _ d hdm
          exact le_trans (hmax d hdm) hd
        · intro _
          rfl
      · rw [if_neg hd]
        constructor
        · intro hcon
          exact absurd hcon (by simp)
        · intro hall
          exact absurd (hall r0.2.2 hmem) hd
    · intro r hr
      rw [heq] at hr
      by_cases hd : r0.2.2 ≤ 3/10
      · rw [if_pos hd] at hr
        exact absurd hr (by simp)
      · rw [if_neg hd] at hr
        injection hr with hr
        refine ⟨?_, ?_, ?_, ?_⟩
        · rw [← hr]
        · rw [← hr]
          exact hmem
        · rw [← hr]
          exact hmax
        · rw [← hr]
          exact not_le.mp hd

/-- Witness for **C8**: the empty proposal list has fewer than two proposals and
yields no conflict. -/
theorem detect_conflict_spec_witness :
    ([] : List Specialist.DiffProposal).length < 2 ∧
    DomainLeader.detect_conflict ([] : List Specialist.DiffProposal) = none :=
  ⟨by decide, (detect_conflict_spec ([] : List Specialist.DiffProposal)).1 (by decide)⟩

end AOP
